import Mathlib

/-!
Shallow embedding of the ERPNextNof promise-calculation engine
(`src/services/promise_service.py`, `src/services/stock_service.py`,
`src/utils/warehouse_utils.py`) and proofs about it.

Modelling conventions:
* A calendar date is an integer, counted in days from an (arbitrary) epoch
  Monday, so that `d % 7` is exactly Python's `date.weekday()`
  (Mon = 0, ..., Fri = 4, Sat = 5, Sun = 6).
* Python `float` quantities are modelled as rationals (`ℚ`).
* The wall-clock cutoff comparison `current_time > cutoff_time` inside
  `_apply_cutoff_rule` is impure in the source; it is modelled by an explicit
  Boolean parameter `after_cutoff` passed to the embedding.
* `ERPNextClientError` raised by the ERP client is modelled as the `.error`
  case of an `Except` value carrying the optional HTTP status code
  (the source reads it with `getattr(e, "status_code", None)`).
* Human-readable `reasons` strings and the `options` suggestions are not part
  of any verified property and are omitted from the embedded response;
  `blockers` strings are abstracted into a tag type that records exactly the
  append sites of the source.
-/

set_option allowUnsafeReducibility true in
attribute [semireducible] Rat.add Rat.sub Rat.mul Rat.div Rat.inv Rat.neg Rat.blt

namespace ERPNextNof

/-! ## Calendar engine (`PromiseService` static methods) -/

/-- Embeds `PromiseService.is_working_day`: Python `date.weekday() not in (4, 5)`,
i.e. the day is neither Friday nor Saturday (Sunday–Thursday workweek). -/
def is_working_day (d : ℤ) : Bool := decide (d % 7 ≠ 4 ∧ d % 7 ≠ 5)

/-- Fuel-indexed rendering of the `while not is_working_day: date += 1` loop in
`PromiseService.next_working_day`.  The loop advances at most twice
(Friday → Saturday → Sunday), so any fuel `≥ 2` computes the loop's result. -/
def nextWorkingDayFuel : ℕ → ℤ → ℤ
  | 0, d => d
  | n + 1, d => if is_working_day d then d else nextWorkingDayFuel n (d + 1)

/-- Embeds `PromiseService.next_working_day`: the date itself if it is a working
day, otherwise the next working day (the following Sunday). -/
def next_working_day (d : ℤ) : ℤ := nextWorkingDayFuel 7 d

/-- Embeds `PromiseService.add_working_days`: advance `n` working days, skipping
Friday/Saturday; adding `0` returns the input unchanged.  Each loop iteration
that increments `days_added` lands on the first working day strictly after the
current date, which is `next_working_day (d + 1)`. -/
def add_working_days (d : ℤ) : ℕ → ℤ
  | 0 => d
  | n + 1 => add_working_days (next_working_day (d + 1)) n

/-! ## Warehouse classifier (`src/utils/warehouse_utils.py`) -/

/-- Embeds `WarehouseType` (five semantic warehouse categories). -/
inductive WarehouseType where
  | SELLABLE
  | NEEDS_PROCESSING
  | IN_TRANSIT
  | NOT_AVAILABLE
  | GROUP
deriving DecidableEq, Repr

/-- Character-level lowercasing; embeds Python `str.lower()` (all warehouse
names involved are ASCII, where `Char.toLower` agrees with Python). -/
def strLower (s : String) : String := String.mk (s.data.map Char.toLower)

/-- Drops leading whitespace characters from a character list. -/
def charsDropWhile (p : Char → Bool) : List Char → List Char
  | [] => []
  | c :: cs => if p c then charsDropWhile p cs else c :: cs

/-- Embeds Python `str.strip()`: remove leading and trailing whitespace. -/
def strStrip (s : String) : String :=
  String.mk (((charsDropWhile Char.isWhitespace s.data).reverse.dropWhile Char.isWhitespace).reverse)

/-- Decides whether `needle` is a prefix of `hay` (character lists). -/
def charsPrefix : List Char → List Char → Bool
  | [], _ => true
  | _ :: _, [] => false
  | a :: as, b :: bs => a = b && charsPrefix as bs

/-- Decides whether `needle` occurs contiguously inside `hay`. -/
def charsContains (needle : List Char) : List Char → Bool
  | [] => needle.isEmpty
  | c :: rest => charsPrefix needle (c :: rest) || charsContains needle rest

/-- Embeds the Python substring test `pat in hay` used by
`WarehouseManager.classify_warehouse`. -/
def strContains (hay pat : String) : Bool := charsContains pat.data hay.data

/-- Embeds `DEFAULT_WAREHOUSE_CLASSIFICATIONS`: the exact-match table keyed by
normalized (lower-cased) warehouse names. -/
def DEFAULT_WAREHOUSE_CLASSIFICATIONS : List (String × WarehouseType) :=
  [("stores - sd", .SELLABLE),
   ("stores - wh", .SELLABLE),
   ("main warehouse", .SELLABLE),
   ("warehouse", .SELLABLE),
   ("finished goods - sd", .NEEDS_PROCESSING),
   ("finished goods - wh", .NEEDS_PROCESSING),
   ("finished goods", .NEEDS_PROCESSING),
   ("goods in transit - sd", .IN_TRANSIT),
   ("goods in transit - wh", .IN_TRANSIT),
   ("goods in transit", .IN_TRANSIT),
   ("in transit", .IN_TRANSIT),
   ("work in progress - sd", .NOT_AVAILABLE),
   ("work in progress - wh", .NOT_AVAILABLE),
   ("work in progress", .NOT_AVAILABLE),
   ("wip", .NOT_AVAILABLE),
   ("rejected - sd", .NOT_AVAILABLE),
   ("rejected - wh", .NOT_AVAILABLE),
   ("scrap", .NOT_AVAILABLE),
   ("all warehouses - sd", .GROUP),
   ("all warehouses - wh", .GROUP),
   ("all warehouses", .GROUP)]

/-- Embeds `WarehouseManager.classify_warehouse`.  `cls` is
`self.classifications` (the exact-match table); `warehouse_name` the input.
The empty string stands for Python's falsy `warehouse_name` check. -/
def classify_warehouse (cls : List (String × WarehouseType)) (warehouse_name : String) :
    WarehouseType :=
  if warehouse_name = "" then .SELLABLE
  else
    let normalized := strStrip (strLower warehouse_name)
    match cls.lookup normalized with
    | some t => t
    | none =>
      if strContains normalized "transit" || strContains normalized "in transit" then
        .IN_TRANSIT
      else if strContains normalized "wip" || strContains normalized "work in progress" then
        .NOT_AVAILABLE
      else if strContains normalized "finished goods" || strContains normalized "finished" then
        .NEEDS_PROCESSING
      else if strContains normalized "all" || strContains normalized "group" then
        .GROUP
      else if strContains normalized "scrap" || strContains normalized "reject" then
        .NOT_AVAILABLE
      else
        .SELLABLE

/-! ## Request/response data model (`src/models`) -/

/-- Embeds `DesiredDateMode`. -/
inductive DesiredDateMode where
  | LATEST_ACCEPTABLE
  | STRICT_FAIL
  | NO_EARLY_DELIVERY
deriving DecidableEq, Repr

/-- Embeds `PromiseRules`.  `processing_lead_time_days` is `Option` because
`_get_processing_lead_time` tests it against `None`.  The `cutoff_time` and
`timezone` strings are consumed only by the impure wall-clock comparison,
which the embedding replaces by the `after_cutoff` Boolean parameter. -/
structure PromiseRules where
  no_weekends : Bool
  lead_time_buffer_days : ℕ
  processing_lead_time_days : Option ℕ
  desired_date_mode : DesiredDateMode
deriving DecidableEq, Repr

/-- Embeds `ItemRequest` (quantity as a rational, optional warehouse). -/
structure ItemRequest where
  item_code : String
  qty : ℚ
  warehouse : Option String
deriving DecidableEq, Repr

/-- Embeds `PromiseStatus`. -/
inductive PromiseStatus where
  | OK
  | CANNOT_FULFILL
  | CANNOT_PROMISE_RELIABLY
deriving DecidableEq, Repr

/-- Embeds `FulfillmentSource` (`source` is the literal tag string `"stock"`
or `"purchase_order"` exactly as in the Python model). -/
structure FulfillmentSource where
  source : String
  qty : ℚ
  available_date : ℤ
  ship_ready_date : ℤ
  warehouse : Option String
  po_id : Option String
  expected_date : Option ℤ
deriving DecidableEq, Repr

/-- Embeds `ItemPlan`. -/
structure ItemPlan where
  item_code : String
  qty_required : ℚ
  fulfillment : List FulfillmentSource
  shortage : ℚ
deriving DecidableEq, Repr

/-- Embeds the blocker strings appended by `_identify_blockers` and
`calculate_promise` as structured tags (one constructor per append site). -/
inductive Blocker where
  | shortageOf (item_code : String) (qty : ℚ)
  | latePO (item_code : String) (po_id : Option String) (days_away : ℤ)
  | poAccess
deriving DecidableEq, Repr

/-- Embeds `"HIGH"` / `"MEDIUM"` / `"LOW"` confidence strings. -/
inductive Confidence where
  | HIGH
  | MEDIUM
  | LOW
deriving DecidableEq, Repr

/-- Embeds `PromiseResponse` (without the free-text `reasons`/`options`). -/
structure PromiseResponse where
  status : PromiseStatus
  promise_date : Option ℤ
  promise_date_raw : ℤ
  desired_date : Option ℤ
  desired_date_mode : Option DesiredDateMode
  on_time : Option Bool
  adjusted_due_to_no_early_delivery : Bool
  can_fulfill : Bool
  confidence : Confidence
  plan : List ItemPlan
  blockers : List Blocker
deriving DecidableEq, Repr

/-! ## Stock service (`src/services/stock_service.py`) -/

/-- Embeds the `bin` payload read by `get_available_stock` (dict `.get` with
default `0.0` is absorbed into total fields). -/
structure BinData where
  actual_qty : ℚ
  reserved_qty : ℚ
deriving DecidableEq, Repr

/-- Embeds the result dict of `StockService.get_available_stock`. -/
structure StockLevels where
  actual_qty : ℚ
  reserved_qty : ℚ
  available_qty : ℚ
deriving DecidableEq, Repr

instance {ε α : Type} [DecidableEq ε] [DecidableEq α] : DecidableEq (Except ε α) :=
  fun a b =>
    match a, b with
    | .ok x, .ok y => decidable_of_iff (x = y) (by simp)
    | .error x, .error y => decidable_of_iff (x = y) (by simp)
    | .ok _, .error _ => isFalse (by simp)
    | .error _, .ok _ => isFalse (by simp)

/-- A call to the ERPNext client: either the payload, or an
`ERPNextClientError` carrying the optional `status_code` attribute. -/
abbrev ClientCall (α : Type) := Except (Option ℕ) α

/-- Embeds `StockService.get_available_stock` for a named warehouse (the
engine always passes one): available = `max 0 (actual - reserved)`; any
`ERPNextClientError` is absorbed into zero stock. -/
def get_available_stock (fetch : ClientCall BinData) : StockLevels :=
  match fetch with
  | .ok bin =>
    { actual_qty := bin.actual_qty
      reserved_qty := bin.reserved_qty
      available_qty := max 0 (bin.actual_qty - bin.reserved_qty) }
  | .error _ => { actual_qty := 0, reserved_qty := 0, available_qty := 0 }

/-- Embeds one raw purchase-order row returned by
`ERPNextClient.get_incoming_purchase_orders`. -/
structure RawPO where
  po_id : String
  pending_qty : ℚ
  schedule_date : Option ℤ
  warehouse : Option String
deriving DecidableEq, Repr

/-- Embeds one entry of the `supply` list built by `get_incoming_supply`. -/
structure SupplyRec where
  po_id : String
  qty : ℚ
  expected_date : ℤ
  warehouse : Option String
deriving DecidableEq, Repr

/-- Embeds the `access_error` marker strings of `get_incoming_supply`. -/
inductive AccessError where
  | permission_denied
  | other_error
deriving DecidableEq, Repr

/-- Embeds the result dict of `StockService.get_incoming_supply`. -/
structure IncomingResult where
  supply : List SupplyRec
  access_error : Option AccessError
deriving DecidableEq, Repr

/-- Key order used by `result["supply"].sort(key=lambda x: x["expected_date"])`. -/
def supplyDateLE (a b : SupplyRec) : Prop := a.expected_date ≤ b.expected_date

instance : DecidableRel supplyDateLE := fun _ _ => Int.decLe _ _

instance : IsTotal SupplyRec supplyDateLE := ⟨fun _ _ => Int.le_total _ _⟩

instance : IsTrans SupplyRec supplyDateLE := ⟨fun _ _ _ => Int.le_trans⟩

/-- Embeds the filter `if after_date and expected_date < after_date: continue`
(a `None` `after_date` is falsy and skips nothing). -/
def beforeAfterDate (after_date : Option ℤ) (d : ℤ) : Bool :=
  match after_date with
  | some ad => decide (d < ad)
  | none => false

/-- Embeds `StockService.get_incoming_supply`: rows without a schedule date
are skipped, rows strictly before `after_date` are filtered out, the rest are
sorted by expected date.  Python's `list.sort` is stable; `List.insertionSort`
with the reflexive key order `supplyDateLE` is the same stable sort.  An
`ERPNextClientError` is absorbed: status code 403 becomes
`permission_denied`, anything else `other_error`. -/
def get_incoming_supply (fetch : ClientCall (List RawPO)) (after_date : Option ℤ) :
    IncomingResult :=
  match fetch with
  | .error status =>
    { supply := []
      access_error := some (if status = some 403 then .permission_denied else .other_error) }
  | .ok pos =>
    let recs := pos.filterMap (fun po =>
      match po.schedule_date with
      | none => none
      | some d =>
        if beforeAfterDate after_date d then none
        else some { po_id := po.po_id, qty := po.pending_qty, expected_date := d,
                    warehouse := po.warehouse })
    { supply := List.insertionSort supplyDateLE recs, access_error := none }

/-! ## Promise service (`src/services/promise_service.py`) -/

/-- Lead-time override tables plus the system default held by
`PromiseService.__init__` / `settings`. -/
structure LeadTimeConfig where
  item_lead_times : List (String × ℕ)
  warehouse_lead_times : List (String × ℕ)
  processing_lead_time_days_default : ℕ
deriving DecidableEq, Repr

/-- Embeds `PromiseService._get_processing_lead_time`: item override, then
warehouse override, then rule-level value, then system default. -/
def get_processing_lead_time (cfg : LeadTimeConfig) (item_code warehouse : String)
    (rules : PromiseRules) : ℕ :=
  match cfg.item_lead_times.lookup item_code with
  | some n => n
  | none =>
    match cfg.warehouse_lead_times.lookup warehouse with
    | some n => n
    | none =>
      match rules.processing_lead_time_days with
      | some n => n
      | none => cfg.processing_lead_time_days_default

/-- The `ship_ready_date` local of the stock branch of `_build_item_plan`:
`days` working days after today when the calendar is active, else `days`
calendar days. -/
def stock_ship_ready_date (rules : PromiseRules) (days : ℕ) (today : ℤ) : ℤ :=
  if rules.no_weekends then add_working_days today days else today + (days : ℤ)

/-- One stock `FulfillmentSource` as `_build_item_plan` constructs it. -/
def mkStockSource (warehouse : String) (qty_from_stock : ℚ) (today ship : ℤ) :
    FulfillmentSource :=
  { source := "stock", qty := qty_from_stock, available_date := today,
    ship_ready_date := ship, warehouse := some warehouse, po_id := none,
    expected_date := none }

/-- Embeds the stock branch of `_build_item_plan` (lines guarded by
`available_stock > 0`): returns the stock fulfillment sources (at most one)
and the remaining needed quantity.  `NEEDS_PROCESSING` adds one extra
processing day; `IN_TRANSIT`, `NOT_AVAILABLE` and `GROUP` allocate nothing. -/
def stock_allocation (warehouse_type : WarehouseType) (available_stock qty_needed : ℚ)
    (warehouse : String) (today : ℤ) (rules : PromiseRules) (lead_time_days : ℕ) :
    List FulfillmentSource × ℚ :=
  if 0 < available_stock then
    match warehouse_type with
    | .SELLABLE =>
      let qty_from_stock := min available_stock qty_needed
      ([mkStockSource warehouse qty_from_stock today
          (stock_ship_ready_date rules lead_time_days today)],
       qty_needed - qty_from_stock)
    | .NEEDS_PROCESSING =>
      let qty_from_stock := min available_stock qty_needed
      ([mkStockSource warehouse qty_from_stock today
          (stock_ship_ready_date rules (lead_time_days + 1) today)],
       qty_needed - qty_from_stock)
    | _ => ([], qty_needed)
  else ([], qty_needed)

/-- The `available_date` local of the PO loop of `_build_item_plan`: the
expected receipt date, snapped to the next working day when it falls on a
weekend and the calendar is active. -/
def po_available_date (rules : PromiseRules) (po : SupplyRec) : ℤ :=
  if rules.no_weekends && !is_working_day po.expected_date then
    next_working_day po.expected_date
  else po.expected_date

/-- The `ship_ready_date` local of the PO loop of `_build_item_plan`. -/
def po_ship_ready_date (rules : PromiseRules) (lead_time_days : ℕ) (po : SupplyRec) : ℤ :=
  if rules.no_weekends then add_working_days (po_available_date rules po) lead_time_days
  else po_available_date rules po + (lead_time_days : ℤ)

/-- One purchase-order `FulfillmentSource` as `_build_item_plan` constructs it. -/
def mkPOSource (rules : PromiseRules) (lead_time_days : ℕ) (po : SupplyRec)
    (qty_from_po : ℚ) : FulfillmentSource :=
  { source := "purchase_order", qty := qty_from_po,
    available_date := po_available_date rules po,
    ship_ready_date := po_ship_ready_date rules lead_time_days po,
    warehouse := po.warehouse, po_id := some po.po_id,
    expected_date := some po.expected_date }

/-- Embeds the `for po in incoming_supply` loop of `_build_item_plan`: consume
records in list order while quantity remains. -/
def consumePOs (rules : PromiseRules) (lead_time_days : ℕ) :
    List SupplyRec → ℚ → List FulfillmentSource × ℚ
  | [], qty_needed => ([], qty_needed)
  | po :: rest, qty_needed =>
    if qty_needed ≤ 0 then ([], qty_needed)
    else
      let qty_from_po := min po.qty qty_needed
      let next := consumePOs rules lead_time_days rest (qty_needed - qty_from_po)
      (mkPOSource rules lead_time_days po qty_from_po :: next.1, next.2)

/-- Embeds the incoming-PO stage of `_build_item_plan` (the `if qty_needed > 0`
block): fetch incoming supply, either record the access error or consume the
sorted records. -/
def incoming_allocation (rules : PromiseRules) (lead_time_days : ℕ) (qty_needed : ℚ)
    (fetch : ClientCall (List RawPO)) (today : ℤ) :
    List FulfillmentSource × ℚ × Option AccessError :=
  if 0 < qty_needed then
    let incoming := get_incoming_supply fetch (some today)
    match incoming.access_error with
    | some e => ([], qty_needed, some e)
    | none =>
      let consumed := consumePOs rules lead_time_days incoming.supply qty_needed
      (consumed.1, consumed.2, none)
  else ([], qty_needed, none)

/-- The per-item provider snapshot: the two ERPNext client calls a single
`_build_item_plan` invocation performs. -/
structure ItemSupply where
  binFetch : ClientCall BinData
  poFetch : ClientCall (List RawPO)
deriving DecidableEq

/-- Embeds `PromiseService._build_item_plan`: classify the warehouse, resolve
the processing lead time, allocate from stock, then from incoming purchase
orders, and record the remaining shortage (`max 0 qty_needed`).  Returns the
plan together with the `po_access_error` marker. -/
def build_item_plan (cls : List (String × WarehouseType)) (cfg : LeadTimeConfig)
    (item : ItemRequest) (sup : ItemSupply) (warehouse : String) (today : ℤ)
    (rules : PromiseRules) : ItemPlan × Option AccessError :=
  let warehouse_type := classify_warehouse cls warehouse
  let lead_time_days := get_processing_lead_time cfg item.item_code warehouse rules
  let stock := get_available_stock sup.binFetch
  let stockStep :=
    stock_allocation warehouse_type stock.available_qty item.qty warehouse today rules
      lead_time_days
  let poStep := incoming_allocation rules lead_time_days stockStep.2 sup.poFetch today
  ({ item_code := item.item_code, qty_required := item.qty,
     fulfillment := stockStep.1 ++ poStep.1, shortage := max 0 poStep.2.1 },
   poStep.2.2)

/-- Embeds `PromiseService._apply_cutoff_rule`.  The impure comparison
`current_time > cutoff_time` is the `after_cutoff` parameter. -/
def apply_cutoff_rule (promise_date : ℤ) (rules : PromiseRules) (today : ℤ)
    (after_cutoff : Bool) : ℤ :=
  if promise_date = today ∧ after_cutoff then
    if rules.no_weekends then add_working_days promise_date 1 else promise_date + 1
  else promise_date

/-- Embeds `PromiseService._apply_business_rules`: lead-time buffer, cutoff
rule, then weekend snapping. -/
def apply_business_rules (base_date : ℤ) (rules : PromiseRules) (today : ℤ)
    (after_cutoff : Bool) : ℤ :=
  let p1 :=
    if rules.no_weekends then add_working_days base_date rules.lead_time_buffer_days
    else base_date + (rules.lead_time_buffer_days : ℤ)
  let p2 := apply_cutoff_rule p1 rules today after_cutoff
  if rules.no_weekends then next_working_day p2 else p2

/-- The fields of the dict returned by `_apply_desired_date_constraints`
(the optional `adjusted_reason` explanation string is omitted). -/
structure DesiredResult where
  promise_date : ℤ
  on_time : Option Bool
  adjusted_due_to_no_early_delivery : Bool
deriving DecidableEq, Repr

/-- The `ValueError` raised in `STRICT_FAIL` mode, carrying the raw promise
date that the message reports as the earliest possible date. -/
inductive PromiseError where
  | desiredDateUnmet (earliest_possible : ℤ)
deriving DecidableEq, Repr

/-- Embeds `PromiseService._apply_desired_date_constraints`: pass-through
without a desired date; `LATEST_ACCEPTABLE` keeps the raw date;
`STRICT_FAIL` raises when the raw date is late; `NO_EARLY_DELIVERY` lifts an
early raw date to the desired date. -/
def apply_desired_date_constraints (promise_date_raw : ℤ) (desired_date : Option ℤ)
    (rules : PromiseRules) : Except PromiseError DesiredResult :=
  match desired_date with
  | none =>
    .ok { promise_date := promise_date_raw, on_time := none,
          adjusted_due_to_no_early_delivery := false }
  | some desired =>
    let on_time := decide (promise_date_raw ≤ desired)
    match rules.desired_date_mode with
    | .LATEST_ACCEPTABLE =>
      .ok { promise_date := promise_date_raw, on_time := some on_time,
            adjusted_due_to_no_early_delivery := false }
    | .STRICT_FAIL =>
      if ¬ on_time then .error (.desiredDateUnmet promise_date_raw)
      else
        .ok { promise_date := promise_date_raw, on_time := some true,
              adjusted_due_to_no_early_delivery := false }
    | .NO_EARLY_DELIVERY =>
      if promise_date_raw < desired then
        .ok { promise_date := desired, on_time := some true,
              adjusted_due_to_no_early_delivery := true }
      else
        .ok { promise_date := promise_date_raw, on_time := some false,
              adjusted_due_to_no_early_delivery := false }

/-- Embeds the single pass of `_calculate_confidence` that tallies
`stock_qty`, `near_po_qty` (expected within 7 days of today) and `far_po_qty`
(expected beyond 7 days).  Engine-produced `purchase_order` sources always
carry an expected date (proved below); `getD today` renders the field
projection `fulfillment.expected_date` total. -/
def tallyStep (today : ℤ) (acc : ℚ × ℚ × ℚ) (f : FulfillmentSource) : ℚ × ℚ × ℚ :=
  if f.source = "stock" then (acc.1 + f.qty, acc.2.1, acc.2.2)
  else if f.source = "purchase_order" then
    (if f.expected_date.getD today - today ≤ 7 then (acc.1, acc.2.1 + f.qty, acc.2.2)
     else (acc.1, acc.2.1, acc.2.2 + f.qty))
  else acc

/-- The `(stock_qty, near_po_qty, far_po_qty)` accumulation loop of
`_calculate_confidence`. -/
def confidence_tallies (plan : List ItemPlan) (today : ℤ) : ℚ × ℚ × ℚ :=
  plan.foldl (fun acc p => p.fulfillment.foldl (tallyStep today) acc) (0, 0, 0)

/-- Embeds `PromiseService._calculate_confidence` (the unused `promise_date`
parameter of the source is dropped): HIGH on ≥ 99 % stock coverage with
< 1 % shortage; LOW on > 10 % shortage or far-PO dominance; else MEDIUM. -/
def calculate_confidence (plan : List ItemPlan) (today : ℤ) : Confidence :=
  let total_qty := (plan.map (·.qty_required)).sum
  let shortage_qty := (plan.map (·.shortage)).sum
  let t := confidence_tallies plan today
  let stock_qty := t.1
  let near_po_qty := t.2.1
  let far_po_qty := t.2.2
  let stock_pct := if 0 < total_qty then stock_qty / total_qty else 0
  let shortage_pct := if 0 < total_qty then shortage_qty / total_qty else 0
  if 99 / 100 ≤ stock_pct ∧ shortage_pct < 1 / 100 then .HIGH
  else if 1 / 10 < shortage_pct ∨ near_po_qty + stock_qty < far_po_qty then .LOW
  else .MEDIUM

/-- Embeds the confidence override in `calculate_promise` (step 4): a PO
access error degrades the calculated confidence to LOW. -/
def final_confidence (plan : List ItemPlan) (today : ℤ) (has_po_access_error : Bool) :
    Confidence :=
  if has_po_access_error then .LOW else calculate_confidence plan today

/-- Embeds `PromiseService._identify_blockers`: per item, a shortage blocker
when shortage is positive, then a late-PO blocker for every consumed purchase
order expected more than 14 days out.  (The source uses the wall clock
`date.today()` here; the embedding passes the same `today`.) -/
def identify_blockers (plan : List ItemPlan) (today : ℤ) : List Blocker :=
  plan.foldl (fun acc p =>
    let acc1 := if 0 < p.shortage then acc ++ [.shortageOf p.item_code p.shortage] else acc
    p.fulfillment.foldl (fun acc f =>
      if f.source = "purchase_order" ∧ f.expected_date.isSome then
        (if 14 < f.expected_date.getD today - today then
          acc ++ [.latePO p.item_code f.po_id (f.expected_date.getD today - today)]
         else acc)
      else acc) acc1) []

/-- Embeds `warehouse = item.warehouse or settings.default_warehouse`
(Python falsy test: `None` and the empty string fall back to the default). -/
def resolve_warehouse (default_warehouse : String) (w : Option String) : String :=
  match w with
  | some s => if s = "" then default_warehouse else s
  | none => default_warehouse

/-- Embeds the `base_today` normalization at the start of `calculate_promise`:
today moved to the next working day when `no_weekends` is active. -/
def base_today_of (rules : PromiseRules) (today : ℤ) : ℤ :=
  if rules.no_weekends then next_working_day today else today

/-- Embeds the step-1 loop of `calculate_promise`: build every item plan
against its provider snapshot. -/
def built_of (cls : List (String × WarehouseType)) (cfg : LeadTimeConfig)
    (default_warehouse : String) (items : List (ItemRequest × ItemSupply))
    (rules : PromiseRules) (today : ℤ) : List (ItemPlan × Option AccessError) :=
  items.map (fun it =>
    build_item_plan cls cfg it.1 it.2 (resolve_warehouse default_warehouse it.1.warehouse)
      (base_today_of rules today) rules)

/-- Embeds the `latest_fulfillment_date` accumulation of `calculate_promise`:
starting from `base_today`, fold in each item's latest ship-ready date
(items without fulfillment contribute nothing). -/
def latest_fold (plans : List ItemPlan) (base : ℤ) : ℤ :=
  plans.foldl (fun acc p =>
    match p.fulfillment.map (·.ship_ready_date) with
    | [] => acc
    | s :: ss => max acc (ss.foldl max s)) base

/-- The raw order-level promise date computed by steps 1–2 of
`calculate_promise` (`promise_date_raw` in the source). -/
def promise_raw_of (cls : List (String × WarehouseType)) (cfg : LeadTimeConfig)
    (default_warehouse : String) (items : List (ItemRequest × ItemSupply))
    (rules : PromiseRules) (today : ℤ) (after_cutoff : Bool) : ℤ :=
  apply_business_rules
    (latest_fold ((built_of cls cfg default_warehouse items rules today).map (·.1))
      (base_today_of rules today))
    rules today after_cutoff

/-- Embeds `PromiseService.calculate_promise`: build item plans, apply
business rules, reconcile the desired date (propagating the `STRICT_FAIL`
`ValueError` as `.error`), score confidence, collect blockers, and assemble
the response; `promise_date` is nulled out unless every shortage is zero. -/
def calculate_promise (cls : List (String × WarehouseType)) (cfg : LeadTimeConfig)
    (default_warehouse : String) (items : List (ItemRequest × ItemSupply))
    (desired_date : Option ℤ) (rules : PromiseRules) (today : ℤ) (after_cutoff : Bool) :
    Except PromiseError PromiseResponse :=
  let built := built_of cls cfg default_warehouse items rules today
  let plan := built.map (·.1)
  let has_po_access_error := built.any (fun b => b.2.isSome)
  let promise_date_raw := promise_raw_of cls cfg default_warehouse items rules today after_cutoff
  match apply_desired_date_constraints promise_date_raw desired_date rules with
  | .error e => .error e
  | .ok dres =>
    let confidence := final_confidence plan today has_po_access_error
    let blockers := identify_blockers plan today ++
      (if has_po_access_error then [Blocker.poAccess] else [])
    let can_fulfill := plan.all (fun p => decide (p.shortage = 0))
    let status :=
      if has_po_access_error ∧ ¬ can_fulfill then PromiseStatus.CANNOT_PROMISE_RELIABLY
      else if ¬ can_fulfill then PromiseStatus.CANNOT_FULFILL
      else PromiseStatus.OK
    let final_promise_date := if can_fulfill then some dres.promise_date else none
    .ok { status := status
          promise_date := final_promise_date
          promise_date_raw := promise_date_raw
          desired_date := desired_date
          desired_date_mode := if desired_date.isSome then some rules.desired_date_mode else none
          on_time := if final_promise_date.isSome then dres.on_time else none
          adjusted_due_to_no_early_delivery := dres.adjusted_due_to_no_early_delivery
          can_fulfill := can_fulfill
          confidence := confidence
          plan := plan
          blockers := blockers }

/-! ## Spec-side definitions

The following definitions transcribe sentences of the specification (not the
source); they are compared against the embedded code in refinement theorems
and counterexamples. -/

/-- One substring fallback rule as the spec describes them: a set of patterns
and the category produced on a match. -/
def fallbackRule (pats : List String) (t : WarehouseType) : String → Option WarehouseType :=
  fun normalized => if pats.any (fun p => strContains normalized p) then some t else none

/-- First-match-wins evaluation of an ordered fallback rule list, defaulting
to `SELLABLE`, as the spec describes the classifier fallback. -/
def firstMatch (rules : List (String → Option WarehouseType)) (s : String) : WarehouseType :=
  match rules with
  | [] => .SELLABLE
  | r :: rest =>
    match r s with
    | some t => t
    | none => firstMatch rest s

/-- Substring fallback rules in the order claim C6 states them: transit-like,
then WIP/scrap-like, then finished-goods-like, then group-like. -/
def claimC6FallbackRules : List (String → Option WarehouseType) :=
  [fallbackRule ["transit", "in transit"] .IN_TRANSIT,
   fallbackRule ["wip", "work in progress", "scrap", "reject"] .NOT_AVAILABLE,
   fallbackRule ["finished goods", "finished"] .NEEDS_PROCESSING,
   fallbackRule ["all", "group"] .GROUP]

/-- The classifier claim C6 describes: exact case-insensitive match, then the
claimed fallback order, then the `SELLABLE` default. -/
def classify_warehouse_claimC6 (cls : List (String × WarehouseType)) (warehouse_name : String) :
    WarehouseType :=
  if warehouse_name = "" then .SELLABLE
  else
    let normalized := strStrip (strLower warehouse_name)
    match cls.lookup normalized with
    | some t => t
    | none => firstMatch claimC6FallbackRules normalized

/-- Substring fallback rules in the order the code actually checks them:
transit-like, WIP-like, finished-goods-like, group-like, then
scrap/reject-like (amended form of claim C6). -/
def amendedC6FallbackRules : List (String → Option WarehouseType) :=
  [fallbackRule ["transit", "in transit"] .IN_TRANSIT,
   fallbackRule ["wip", "work in progress"] .NOT_AVAILABLE,
   fallbackRule ["finished goods", "finished"] .NEEDS_PROCESSING,
   fallbackRule ["all", "group"] .GROUP,
   fallbackRule ["scrap", "reject"] .NOT_AVAILABLE]

/-- The classifier the amended claim C6 describes. -/
def classify_warehouse_amendedC6 (cls : List (String × WarehouseType))
    (warehouse_name : String) : WarehouseType :=
  if warehouse_name = "" then .SELLABLE
  else
    let normalized := strStrip (strLower warehouse_name)
    match cls.lookup normalized with
    | some t => t
    | none => firstMatch amendedC6FallbackRules normalized

/-- Every ship-ready date emitted by a list of item plans (spec §4.4: "across
all FulfillmentSources of all items"). -/
def allShipReady (plans : List ItemPlan) : List ℤ :=
  plans.flatMap (fun p => p.fulfillment.map (·.ship_ready_date))

/-- The base date as the spec's aggregator describes it: the latest
ship-ready date, or the fallback when no item has any fulfillment. -/
def latest_ship_ready_spec (plans : List ItemPlan) (fallback : ℤ) : ℤ :=
  match allShipReady plans with
  | [] => fallback
  | s :: ss => ss.foldl max s

/-- The promise-aggregation pipeline exactly as claim C5 words it: base date,
lead-time buffer (working days when the calendar is active), cutoff only when
the result equals today, final weekend snap.  `fallback` is the base used
when no fulfillment exists (`today` in the claim as stated; the normalized
working-day today in the amended claim). -/
def aggregate_specC5 (plans : List ItemPlan) (rules : PromiseRules) (today : ℤ)
    (after_cutoff : Bool) (fallback : ℤ) : ℤ :=
  let base := latest_ship_ready_spec plans fallback
  let buffered :=
    if rules.no_weekends then add_working_days base rules.lead_time_buffer_days
    else base + (rules.lead_time_buffer_days : ℤ)
  let cut :=
    if buffered = today ∧ after_cutoff then
      (if rules.no_weekends then add_working_days buffered 1 else buffered + 1)
    else buffered
  if rules.no_weekends then next_working_day cut else cut

/-- All fulfillment sources of a plan list, in plan order. -/
def all_sources (plan : List ItemPlan) : List FulfillmentSource :=
  plan.flatMap (·.fulfillment)

/-- Total required quantity over the plan (spec §4.6 `total`). -/
def total_qty (plan : List ItemPlan) : ℚ := (plan.map (·.qty_required)).sum

/-- Total shortage over the plan (spec §4.6 `shortage_qty`). -/
def shortage_qty (plan : List ItemPlan) : ℚ := (plan.map (·.shortage)).sum

/-- Stock-sourced quantity over the plan (spec §4.6 `stock_qty`). -/
def stock_qty (plan : List ItemPlan) : ℚ :=
  (((all_sources plan).filter (fun f => decide (f.source = "stock"))).map (·.qty)).sum

/-- Incoming quantity due within 7 days of today (spec §4.6 `near_po_qty`). -/
def near_po_qty (plan : List ItemPlan) (today : ℤ) : ℚ :=
  (((all_sources plan).filter (fun f =>
      decide (f.source = "purchase_order") &&
        decide (f.expected_date.getD today - today ≤ 7))).map (·.qty)).sum

/-- Incoming quantity due beyond 7 days from today (spec §4.6 `far_po_qty`). -/
def far_po_qty (plan : List ItemPlan) (today : ℤ) : ℚ :=
  (((all_sources plan).filter (fun f =>
      decide (f.source = "purchase_order") &&
        decide (7 < f.expected_date.getD today - today))).map (·.qty)).sum

/-- Lexicographic (code-point) order on character lists, as Python compares
strings. -/
def charsLE : List Char → List Char → Bool
  | [], _ => true
  | _ :: _, [] => false
  | a :: as, b :: bs => if a = b then charsLE as bs else decide (a < b)

/-- Lexicographic string order (Python `<=` on provenance ids). -/
def strLE (a b : String) : Bool := charsLE a.data b.data

/-- The fulfillment ordering claim C10 states: stock sources first, then
purchase-order sources ascending by expected date with ties broken by
purchase-order id. -/
def stock_first_then_po_by_date_id (l : List FulfillmentSource) : Prop :=
  ∃ sl pl, l = sl ++ pl ∧ (∀ f ∈ sl, f.source = "stock") ∧
    (∀ f ∈ pl, f.source = "purchase_order") ∧
    pl.Pairwise (fun a b =>
      a.expected_date.getD 0 < b.expected_date.getD 0 ∨
        (a.expected_date.getD 0 = b.expected_date.getD 0 ∧
          strLE (a.po_id.getD "") (b.po_id.getD "") = true))

/-- The fulfillment ordering the amended claim C10 states: stock sources
first, then purchase-order sources (each carrying an expected date) weakly
ascending by expected date; ties keep the provider's stable order. -/
def stock_first_then_po_by_date (l : List FulfillmentSource) : Prop :=
  ∃ sl pl, l = sl ++ pl ∧ (∀ f ∈ sl, f.source = "stock") ∧
    (∀ f ∈ pl, f.source = "purchase_order" ∧ f.expected_date.isSome = true) ∧
    pl.Pairwise (fun a b => a.expected_date.getD 0 ≤ b.expected_date.getD 0)

/-! ## Concrete instances used by witnesses -/

/-- A placeholder response (used only as the default of `Except.toOption.getD`
below; the calls involved always return `.ok`). -/
def emptyResponse : PromiseResponse :=
  { status := .OK, promise_date := none, promise_date_raw := 0, desired_date := none,
    desired_date_mode := none, on_time := none, adjusted_due_to_no_early_delivery := false,
    can_fulfill := true, confidence := .HIGH, plan := [], blockers := [] }

/-- Concrete run for the C4 witness: 50 required, 90 units of sellable stock,
no incoming purchase orders, `no_weekends = false`, today = day 0. -/
def respC4 : PromiseResponse :=
  (calculate_promise DEFAULT_WAREHOUSE_CLASSIFICATIONS ⟨[], [], 1⟩ "Stores - WH"
    [(⟨"A", 50, some "Stores - WH"⟩, ⟨.ok ⟨90, 0⟩, .ok []⟩)] none
    ⟨false, 1, some 1, .LATEST_ACCEPTABLE⟩ 0 false).toOption.getD emptyResponse

/-- Concrete one-item plan for the C7 witness: 5 required, all short. -/
def planC7 : List ItemPlan :=
  [{ item_code := "A", qty_required := 5, fulfillment := [], shortage := 5 }]

/-- Concrete plan for the C10 counterexample: two purchase orders with equal
expected dates, provider order PO-B before PO-A. -/
def planC10 : ItemPlan :=
  (build_item_plan DEFAULT_WAREHOUSE_CLASSIFICATIONS ⟨[], [], 1⟩ ⟨"A", 8, some "Stores - WH"⟩
    ⟨.ok ⟨0, 0⟩, .ok [⟨"PO-B", 4, some 5, none⟩, ⟨"PO-A", 10, some 5, none⟩]⟩
    "Stores - WH" 0 ⟨false, 0, some 0, .LATEST_ACCEPTABLE⟩).1

/-- Concrete run for the C9 counterexample: the stock read fails with a
server error while the incoming-supply read succeeds and covers the demand. -/
def respC9 : PromiseResponse :=
  (calculate_promise DEFAULT_WAREHOUSE_CLASSIFICATIONS ⟨[], [], 1⟩ "Stores - WH"
    [(⟨"A", 5, some "Stores - WH"⟩, ⟨.error (some 500), .ok [⟨"PO-1", 10, some 2, none⟩]⟩)]
    none ⟨false, 1, some 1, .LATEST_ACCEPTABLE⟩ 0 false).toOption.getD emptyResponse

/-- Concrete run for the C9 witness: the incoming-supply read is denied
(HTTP 403) and stock is zero. -/
def respC9b : PromiseResponse :=
  (calculate_promise DEFAULT_WAREHOUSE_CLASSIFICATIONS ⟨[], [], 1⟩ "Stores - WH"
    [(⟨"D", 5, some "Stores - WH"⟩, ⟨.ok ⟨0, 0⟩, .error (some 403)⟩)]
    none ⟨false, 1, some 1, .LATEST_ACCEPTABLE⟩ 0 false).toOption.getD emptyResponse

/-- Concrete run for the C3 counterexample: `no_weekends = true`, stock
covers the demand, raw promise day 0 (Monday), desired date day 4 (Friday)
under `NO_EARLY_DELIVERY`. -/
def respC3 : PromiseResponse :=
  (calculate_promise DEFAULT_WAREHOUSE_CLASSIFICATIONS ⟨[], [], 1⟩ "Stores - WH"
    [(⟨"A", 5, some "Stores - WH"⟩, ⟨.ok ⟨10, 0⟩, .ok []⟩)] (some 4)
    ⟨true, 0, some 0, .NO_EARLY_DELIVERY⟩ 0 false).toOption.getD emptyResponse

/-- Concrete run for the C3 witness: `no_weekends = true`, no desired date. -/
def respC3w : PromiseResponse :=
  (calculate_promise DEFAULT_WAREHOUSE_CLASSIFICATIONS ⟨[], [], 1⟩ "Stores - WH"
    [(⟨"A", 5, some "Stores - WH"⟩, ⟨.ok ⟨10, 0⟩, .ok []⟩)] none
    ⟨true, 1, some 1, .LATEST_ACCEPTABLE⟩ 0 false).toOption.getD emptyResponse

/-! ## Calendar lemmas -/

theorem is_working_day_iff {d : ℤ} : is_working_day d = true ↔ d % 7 ≠ 4 ∧ d % 7 ≠ 5 := by
  simp [is_working_day]

theorem nextWorkingDayFuel_works (n : ℕ) :
    ∀ d : ℤ, (6 - d % 7).toNat < n ∨ is_working_day d = true →
      is_working_day (nextWorkingDayFuel n d) = true := by
  induction n with
  | zero =>
    intro d h
    rcases h with h | h
    · omega
    · simpa [nextWorkingDayFuel] using h
  | succ n ih =>
    intro d h
    show is_working_day (if is_working_day d then d else nextWorkingDayFuel n (d + 1)) = true
    by_cases hw : is_working_day d
    · simp [hw]
    · simp only [hw, if_false, Bool.false_eq_true]
      apply ih
      left
      have hw' : ¬ (d % 7 ≠ 4 ∧ d % 7 ≠ 5) := by
        intro hc
        exact hw (is_working_day_iff.mpr hc)
      rcases h with h | h
      · omega
      · exact absurd h hw

theorem next_working_day_works (d : ℤ) : is_working_day (next_working_day d) = true := by
  apply nextWorkingDayFuel_works
  left
  omega

theorem nextWorkingDayFuel_ge (n : ℕ) : ∀ d : ℤ, d ≤ nextWorkingDayFuel n d := by
  induction n with
  | zero => intro d; simp [nextWorkingDayFuel]
  | succ n ih =>
    intro d
    show d ≤ if is_working_day d then d else nextWorkingDayFuel n (d + 1)
    by_cases hw : is_working_day d
    · simp [hw]
    · simp only [hw, if_false]
      have := ih (d + 1)
      omega

theorem le_next_working_day (d : ℤ) : d ≤ next_working_day d := nextWorkingDayFuel_ge 7 d

theorem next_working_day_of_working {d : ℤ} (h : is_working_day d = true) :
    next_working_day d = d := by
  show (if is_working_day d then d else nextWorkingDayFuel 6 (d + 1)) = d
  simp [h]

theorem add_working_days_works {d : ℤ} {n : ℕ}
    (h : is_working_day d = true ∨ 0 < n) : is_working_day (add_working_days d n) = true := by
  induction n generalizing d with
  | zero =>
    rcases h with h | h
    · simpa [add_working_days] using h
    · omega
  | succ n ih =>
    show is_working_day (add_working_days (next_working_day (d + 1)) n) = true
    rcases Nat.eq_zero_or_pos n with hn | hn
    · subst hn
      simpa [add_working_days] using next_working_day_works (d + 1)
    · exact ih (Or.inr hn)

theorem le_add_working_days (d : ℤ) (n : ℕ) : d ≤ add_working_days d n := by
  induction n generalizing d with
  | zero => simp [add_working_days]
  | succ n ih =>
    show d ≤ add_working_days (next_working_day (d + 1)) n
    have h1 := le_next_working_day (d + 1)
    have h2 := ih (next_working_day (d + 1))
    omega

/-! ## Supply and allocation lemmas -/

theorem get_incoming_supply_sorted (fetch : ClientCall (List RawPO)) (ad : Option ℤ) :
    List.Sorted supplyDateLE ((get_incoming_supply fetch ad).supply) := by
  cases fetch with
  | error s => simp [get_incoming_supply]
  | ok pos => exact List.sorted_insertionSort supplyDateLE _

theorem get_incoming_supply_mem {fetch : ClientCall (List RawPO)} {ad : Option ℤ}
    {r : SupplyRec} (h : r ∈ (get_incoming_supply fetch ad).supply) :
    ∃ pos, fetch = Except.ok pos ∧
      ∃ po ∈ pos, r.qty = po.pending_qty ∧ po.schedule_date = some r.expected_date := by
  cases fetch with
  | error s => simp [get_incoming_supply] at h
  | ok pos =>
    refine ⟨pos, rfl, ?_⟩
    rw [show (get_incoming_supply (Except.ok pos) ad).supply
          = List.insertionSort supplyDateLE (pos.filterMap _) from rfl] at h
    rw [(List.perm_insertionSort supplyDateLE _).mem_iff] at h
    rw [List.mem_filterMap] at h
    obtain ⟨po, hpo, hf⟩ := h
    refine ⟨po, hpo, ?_⟩
    cases hsd : po.schedule_date with
    | none => rw [hsd] at hf; simp at hf
    | some d =>
      rw [hsd] at hf
      have hf' : (if beforeAfterDate ad d = true then none
          else some { po_id := po.po_id, qty := po.pending_qty, expected_date := d,
                      warehouse := po.warehouse }) = some r := hf
      by_cases hskip : beforeAfterDate ad d = true
      · rw [if_pos hskip] at hf'
        cases hf'
      · rw [if_neg hskip] at hf'
        rw [Option.some_inj] at hf'
        rw [← hf']
        exact ⟨rfl, rfl⟩

theorem get_incoming_supply_after {fetch : ClientCall (List RawPO)} {base : ℤ}
    {r : SupplyRec} (h : r ∈ (get_incoming_supply fetch (some base)).supply) :
    base ≤ r.expected_date := by
  cases fetch with
  | error s => simp [get_incoming_supply] at h
  | ok pos =>
    rw [show (get_incoming_supply (Except.ok pos) (some base)).supply
          = List.insertionSort supplyDateLE (pos.filterMap _) from rfl] at h
    rw [(List.perm_insertionSort supplyDateLE _).mem_iff] at h
    rw [List.mem_filterMap] at h
    obtain ⟨po, _, hf⟩ := h
    cases hsd : po.schedule_date with
    | none => rw [hsd] at hf; simp at hf
    | some d =>
      rw [hsd] at hf
      have hf' : (if beforeAfterDate (some base) d = true then none
          else some { po_id := po.po_id, qty := po.pending_qty, expected_date := d,
                      warehouse := po.warehouse }) = some r := hf
      by_cases hlt : d < base
      · rw [if_pos (by simpa [beforeAfterDate] using hlt)] at hf'
        cases hf'
      · rw [if_neg (by simpa [beforeAfterDate] using hlt)] at hf'
        rw [Option.some_inj] at hf'
        rw [← hf']
        show base ≤ d
        omega

theorem get_incoming_supply_qty_nonneg {fetch : ClientCall (List RawPO)} {ad : Option ℤ}
    (hpo : ∀ pos, fetch = Except.ok pos → ∀ po ∈ pos, 0 ≤ po.pending_qty) :
    ∀ r ∈ (get_incoming_supply fetch ad).supply, 0 ≤ r.qty := by
  intro r hr
  obtain ⟨pos, hfetch, po, hmem, hq, _⟩ := get_incoming_supply_mem hr
  rw [hq]
  exact hpo pos hfetch po hmem

theorem consumePOs_sum (rules : PromiseRules) (lt : ℕ) :
    ∀ (recs : List SupplyRec) (q : ℚ), 0 ≤ q → (∀ r ∈ recs, 0 ≤ r.qty) →
      ((consumePOs rules lt recs q).1.map (·.qty)).sum = q - (consumePOs rules lt recs q).2 ∧
        0 ≤ (consumePOs rules lt recs q).2 := by
  intro recs
  induction recs with
  | nil =>
    intro q hq _
    simp [consumePOs, hq]
  | cons po rest ih =>
    intro q hq hnn
    by_cases hle : q ≤ 0
    · simp only [consumePOs, hle, if_pos]
      simp [hq]
    · have hmin : min po.qty q ≤ q := min_le_right _ _
      have hq' : 0 ≤ q - min po.qty q := by linarith
      have ihr := ih (q - min po.qty q) hq' (fun r hr => hnn r (List.mem_cons_of_mem _ hr))
      simp only [consumePOs, hle, if_neg, if_false, not_false_iff]
      simp only [List.map_cons, List.sum_cons, mkPOSource]
      constructor
      · rw [ihr.1]
        ring
      · exact ihr.2

theorem po_available_date_working {rules : PromiseRules} (hw : rules.no_weekends = true)
    (po : SupplyRec) : is_working_day (po_available_date rules po) = true := by
  unfold po_available_date
  by_cases hwd : is_working_day po.expected_date
  · simp [hwd]
  · simp only [hw, Bool.true_and, Bool.not_eq_true] at *
    simp only [hwd, Bool.not_false, if_true]
    exact next_working_day_works po.expected_date

theorem po_ship_ready_date_working {rules : PromiseRules} (hw : rules.no_weekends = true)
    (lt : ℕ) (po : SupplyRec) : is_working_day (po_ship_ready_date rules lt po) = true := by
  unfold po_ship_ready_date
  rw [if_pos hw]
  exact add_working_days_works (Or.inl (po_available_date_working hw po))

theorem le_po_available_date (rules : PromiseRules) (po : SupplyRec) :
    po.expected_date ≤ po_available_date rules po := by
  unfold po_available_date
  split
  · exact le_next_working_day _
  · exact le_rfl

theorem le_po_ship_ready_date (rules : PromiseRules) (lt : ℕ) (po : SupplyRec) :
    po.expected_date ≤ po_ship_ready_date rules lt po := by
  have h1 := le_po_available_date rules po
  unfold po_ship_ready_date
  split
  · have h2 := le_add_working_days (po_available_date rules po) lt
    omega
  · have h2 : (0 : ℤ) ≤ (lt : ℤ) := Int.natCast_nonneg lt
    omega

theorem consumePOs_working {rules : PromiseRules} (lt : ℕ) (hw : rules.no_weekends = true) :
    ∀ (recs : List SupplyRec) (q : ℚ), ∀ f ∈ (consumePOs rules lt recs q).1,
      is_working_day f.available_date = true ∧ is_working_day f.ship_ready_date = true := by
  intro recs
  induction recs with
  | nil => intro q f hf; simp [consumePOs] at hf
  | cons po rest ih =>
    intro q f hf
    by_cases hle : q ≤ 0
    · simp [consumePOs, hle] at hf
    · simp only [consumePOs, hle, if_neg, not_false_iff, List.mem_cons] at hf
      rcases hf with hf | hf
      · subst hf
        exact ⟨po_available_date_working hw po, po_ship_ready_date_working hw lt po⟩
      · exact ih _ f hf

theorem consumePOs_ship_ge (rules : PromiseRules) (lt : ℕ) (base : ℤ) :
    ∀ (recs : List SupplyRec) (q : ℚ), (∀ r ∈ recs, base ≤ r.expected_date) →
      ∀ f ∈ (consumePOs rules lt recs q).1, base ≤ f.ship_ready_date := by
  intro recs
  induction recs with
  | nil => intro q _ f hf; simp [consumePOs] at hf
  | cons po rest ih =>
    intro q hge f hf
    by_cases hle : q ≤ 0
    · simp [consumePOs, hle] at hf
    · simp only [consumePOs, hle, if_neg, not_false_iff, List.mem_cons] at hf
      rcases hf with hf | hf
      · subst hf
        have h1 : base ≤ po.expected_date := hge po (List.mem_cons_self _ _)
        have h2 := le_po_ship_ready_date rules lt po
        show base ≤ po_ship_ready_date rules lt po
        omega
      · exact ih _ (fun r hr => hge r (List.mem_cons_of_mem _ hr)) f hf

theorem consumePOs_take (rules : PromiseRules) (lt : ℕ) :
    ∀ (recs : List SupplyRec) (q : ℚ), ∃ k,
      (consumePOs rules lt recs q).1.map (fun f => (f.source, f.expected_date, f.po_id)) =
        (recs.take k).map (fun r => ("purchase_order", some r.expected_date, some r.po_id)) := by
  intro recs
  induction recs with
  | nil => intro q; exact ⟨0, by simp [consumePOs]⟩
  | cons po rest ih =>
    intro q
    by_cases hle : q ≤ 0
    · exact ⟨0, by simp [consumePOs, hle]⟩
    · obtain ⟨k, hk⟩ := ih (q - min po.qty q)
      refine ⟨k + 1, ?_⟩
      simp only [consumePOs, hle, if_neg, not_false_iff, List.map_cons, List.take_succ_cons,
        mkPOSource]
      rw [hk]

theorem stock_ship_ready_date_working {rules : PromiseRules} (hw : rules.no_weekends = true)
    (days : ℕ) {today : ℤ} (ht : is_working_day today = true) :
    is_working_day (stock_ship_ready_date rules days today) = true := by
  unfold stock_ship_ready_date
  rw [if_pos hw]
  exact add_working_days_works (Or.inl ht)

theorem le_stock_ship_ready_date (rules : PromiseRules) (days : ℕ) (today : ℤ) :
    today ≤ stock_ship_ready_date rules days today := by
  unfold stock_ship_ready_date
  split
  · exact le_add_working_days today days
  · have : (0 : ℤ) ≤ (days : ℤ) := Int.natCast_nonneg days
    omega

theorem stock_allocation_sum (wt : WarehouseType) (av q : ℚ) (w : String) (t : ℤ)
    (rules : PromiseRules) (lt : ℕ) :
    ((stock_allocation wt av q w t rules lt).1.map (·.qty)).sum
      = q - (stock_allocation wt av q w t rules lt).2 := by
  unfold stock_allocation
  by_cases hav : 0 < av
  · simp only [hav, if_pos]
    cases wt <;> simp [mkStockSource]
  · simp [hav]

theorem stock_allocation_snd_nonneg (wt : WarehouseType) (av : ℚ) {q : ℚ} (w : String)
    (t : ℤ) (rules : PromiseRules) (lt : ℕ) (hq : 0 ≤ q) :
    0 ≤ (stock_allocation wt av q w t rules lt).2 := by
  unfold stock_allocation
  by_cases hav : 0 < av
  · simp only [hav, if_pos]
    have h1 : min av q ≤ q := min_le_right _ _
    cases wt <;> simp <;> linarith
  · simpa [hav] using hq

theorem stock_allocation_mem (wt : WarehouseType) (av q : ℚ) (w : String) (t : ℤ)
    (rules : PromiseRules) (lt : ℕ) :
    ∀ f ∈ (stock_allocation wt av q w t rules lt).1,
      f.source = "stock" ∧ f.available_date = t ∧
        (f.ship_ready_date = stock_ship_ready_date rules lt t ∨
          f.ship_ready_date = stock_ship_ready_date rules (lt + 1) t) := by
  intro f hf
  unfold stock_allocation at hf
  by_cases hav : 0 < av
  · simp only [hav, if_pos] at hf
    cases wt with
    | SELLABLE =>
      simp only [List.mem_singleton] at hf
      subst hf
      exact ⟨rfl, rfl, Or.inl rfl⟩
    | NEEDS_PROCESSING =>
      simp only [List.mem_singleton] at hf
      subst hf
      exact ⟨rfl, rfl, Or.inr rfl⟩
    | IN_TRANSIT => simp at hf
    | NOT_AVAILABLE => simp at hf
    | GROUP => simp at hf
  · simp [hav] at hf

theorem incoming_allocation_sum (rules : PromiseRules) (lt : ℕ) {q : ℚ}
    (fetch : ClientCall (List RawPO)) (today : ℤ) (hq : 0 ≤ q)
    (hpo : ∀ pos, fetch = Except.ok pos → ∀ po ∈ pos, 0 ≤ po.pending_qty) :
    ((incoming_allocation rules lt q fetch today).1.map (·.qty)).sum
        = q - (incoming_allocation rules lt q fetch today).2.1 ∧
      0 ≤ (incoming_allocation rules lt q fetch today).2.1 := by
  unfold incoming_allocation
  by_cases hpos : 0 < q
  · simp only [hpos, if_pos]
    cases herr : (get_incoming_supply fetch (some today)).access_error with
    | some e => simp [hq]
    | none =>
      simp only
      exact consumePOs_sum rules lt _ q hq
        (get_incoming_supply_qty_nonneg hpo)
  · simp [hpos, hq]

theorem incoming_allocation_working {rules : PromiseRules} (lt : ℕ) {q : ℚ}
    (fetch : ClientCall (List RawPO)) (today : ℤ) (hw : rules.no_weekends = true) :
    ∀ f ∈ (incoming_allocation rules lt q fetch today).1,
      is_working_day f.available_date = true ∧ is_working_day f.ship_ready_date = true := by
  intro f hf
  unfold incoming_allocation at hf
  by_cases hpos : 0 < q
  · simp only [hpos, if_pos] at hf
    cases herr : (get_incoming_supply fetch (some today)).access_error with
    | some e => rw [herr] at hf; simp at hf
    | none =>
      rw [herr] at hf
      simp only at hf
      exact consumePOs_working lt hw _ q f hf
  · simp [hpos] at hf

theorem incoming_allocation_ship_ge (rules : PromiseRules) (lt : ℕ) {q : ℚ}
    (fetch : ClientCall (List RawPO)) (today : ℤ) :
    ∀ f ∈ (incoming_allocation rules lt q fetch today).1, today ≤ f.ship_ready_date := by
  intro f hf
  unfold incoming_allocation at hf
  by_cases hpos : 0 < q
  · simp only [hpos, if_pos] at hf
    cases herr : (get_incoming_supply fetch (some today)).access_error with
    | some e => rw [herr] at hf; simp at hf
    | none =>
      rw [herr] at hf
      simp only at hf
      exact consumePOs_ship_ge rules lt today _ q
        (fun r hr => get_incoming_supply_after hr) f hf
  · simp [hpos] at hf

theorem incoming_allocation_marker (rules : PromiseRules) (lt : ℕ) (q : ℚ)
    (fetch : ClientCall (List RawPO)) (today : ℤ) :
    (incoming_allocation rules lt q fetch today).2.2.isSome = true ↔
      (0 < q ∧ ∃ st, fetch = Except.error st) := by
  unfold incoming_allocation
  by_cases hpos : 0 < q
  · simp only [hpos, if_pos, true_and]
    cases fetch with
    | error st => simp [get_incoming_supply]
    | ok pos => simp [get_incoming_supply]
  · simp [hpos]

/-! ## Claim C1 -/

/-- Claim C1 (code evidence): with `NO_EARLY_DELIVERY` and the raw promise
date exactly equal to the desired date, `calculate_promise` returns the raw
date as the promise but reports `on_time = false`.  The claim (matching the
response model's documentation of `on_time`) requires `on_time = (raw ==
desired) = true` here; the code computes `on_time = false` for every
`raw ≥ desired`. -/
theorem C1_no_early_on_time_false_at_equality :
    (match calculate_promise DEFAULT_WAREHOUSE_CLASSIFICATIONS ⟨[], [], 1⟩ "Stores - WH"
        [(⟨"A", 5, some "Stores - WH"⟩, ⟨.ok ⟨10, 0⟩, .ok []⟩)] (some 2)
        ⟨false, 1, some 1, .NO_EARLY_DELIVERY⟩ 0 false with
      | .ok r => some (r.promise_date_raw, r.promise_date, r.on_time,
          r.adjusted_due_to_no_early_delivery)
      | .error _ => none)
      = some (2, some 2, some false, false) := by decide

/-! ## Claim C2 -/

/-- Claim C2: for every item plan the engine builds, allocated quantity plus
shortage equals the required quantity, the shortage is non-negative, and the
allocated quantity never exceeds the required quantity (assuming the
request's positive-quantity validation and non-negative provider pending
quantities). -/
theorem C2_item_plan_conservation (cls : List (String × WarehouseType)) (cfg : LeadTimeConfig)
    (item : ItemRequest) (sup : ItemSupply) (warehouse : String) (today : ℤ)
    (rules : PromiseRules) (hq : 0 ≤ item.qty)
    (hpo : ∀ pos, sup.poFetch = Except.ok pos → ∀ po ∈ pos, 0 ≤ po.pending_qty) :
    ((build_item_plan cls cfg item sup warehouse today rules).1.fulfillment.map (·.qty)).sum
        + (build_item_plan cls cfg item sup warehouse today rules).1.shortage
        = (build_item_plan cls cfg item sup warehouse today rules).1.qty_required
      ∧ 0 ≤ (build_item_plan cls cfg item sup warehouse today rules).1.shortage
      ∧ ((build_item_plan cls cfg item sup warehouse today rules).1.fulfillment.map
          (·.qty)).sum
        ≤ (build_item_plan cls cfg item sup warehouse today rules).1.qty_required := by
  have h1 := stock_allocation_sum (classify_warehouse cls warehouse)
    (get_available_stock sup.binFetch).available_qty item.qty warehouse today rules
    (get_processing_lead_time cfg item.item_code warehouse rules)
  have h2 := stock_allocation_snd_nonneg (classify_warehouse cls warehouse)
    (get_available_stock sup.binFetch).available_qty warehouse today rules
    (get_processing_lead_time cfg item.item_code warehouse rules) hq
  have h34 := incoming_allocation_sum rules
    (get_processing_lead_time cfg item.item_code warehouse rules) sup.poFetch today h2 hpo
  simp only [build_item_plan, List.map_append, List.sum_append]
  rw [h1, h34.1]
  have hmax : max (0 : ℚ)
      (incoming_allocation rules (get_processing_lead_time cfg item.item_code warehouse rules)
        (stock_allocation (classify_warehouse cls warehouse)
          (get_available_stock sup.binFetch).available_qty item.qty warehouse today rules
          (get_processing_lead_time cfg item.item_code warehouse rules)).2
        sup.poFetch today).2.1
      = (incoming_allocation rules (get_processing_lead_time cfg item.item_code warehouse rules)
        (stock_allocation (classify_warehouse cls warehouse)
          (get_available_stock sup.binFetch).available_qty item.qty warehouse today rules
          (get_processing_lead_time cfg item.item_code warehouse rules)).2
        sup.poFetch today).2.1 :=
    max_eq_right h34.2
  rw [hmax]
  refine ⟨by ring, ?_, ?_⟩
  · exact h34.2
  · have := h34.2
    linarith

/-- Witness for C2 at a concrete input: quantity 5, stock 3, one incoming
purchase order of 10 due day 2 — the plan allocates 3 + 2 with shortage 0. -/
theorem C2_item_plan_conservation_witness :
    ((build_item_plan DEFAULT_WAREHOUSE_CLASSIFICATIONS ⟨[], [], 1⟩
          ⟨"A", 5, some "Stores - WH"⟩ ⟨.ok ⟨3, 0⟩, .ok [⟨"PO-1", 10, some 2, none⟩]⟩
          "Stores - WH" 0 ⟨false, 1, some 1, .LATEST_ACCEPTABLE⟩).1.fulfillment.map
        (·.qty)).sum
        + (build_item_plan DEFAULT_WAREHOUSE_CLASSIFICATIONS ⟨[], [], 1⟩
          ⟨"A", 5, some "Stores - WH"⟩ ⟨.ok ⟨3, 0⟩, .ok [⟨"PO-1", 10, some 2, none⟩]⟩
          "Stores - WH" 0 ⟨false, 1, some 1, .LATEST_ACCEPTABLE⟩).1.shortage
        = (build_item_plan DEFAULT_WAREHOUSE_CLASSIFICATIONS ⟨[], [], 1⟩
          ⟨"A", 5, some "Stores - WH"⟩ ⟨.ok ⟨3, 0⟩, .ok [⟨"PO-1", 10, some 2, none⟩]⟩
          "Stores - WH" 0 ⟨false, 1, some 1, .LATEST_ACCEPTABLE⟩).1.qty_required :=
  (C2_item_plan_conservation DEFAULT_WAREHOUSE_CLASSIFICATIONS ⟨[], [], 1⟩
    ⟨"A", 5, some "Stores - WH"⟩ ⟨.ok ⟨3, 0⟩, .ok [⟨"PO-1", 10, some 2, none⟩]⟩
    "Stores - WH" 0 ⟨false, 1, some 1, .LATEST_ACCEPTABLE⟩ (by norm_num)
    (by rintro pos ⟨rfl⟩ po hpo; simp at hpo; simp [hpo])).1

/-! ## Claim C6 -/

/-- Claim C6 (counterexample): the name `"group scrap"` matches both a
scrap-like and a group-like fallback pattern and no earlier rule, yet the
code classifies it `GROUP` — the claim requires `NOT_AVAILABLE` (the claimed
classifier indeed yields `NOT_AVAILABLE` there). -/
theorem C6_counterexample_group_scrap :
    classify_warehouse DEFAULT_WAREHOUSE_CLASSIFICATIONS "group scrap" = .GROUP ∧
      classify_warehouse_claimC6 DEFAULT_WAREHOUSE_CLASSIFICATIONS "group scrap"
        = .NOT_AVAILABLE ∧
      WarehouseType.GROUP ≠ WarehouseType.NOT_AVAILABLE :=
  ⟨by decide, by decide, by decide⟩

/-- Claim C6 (amended): classification resolves by (1) exact case-insensitive
table match, then (2) first-match-wins substring rules in the order
transit-like, WIP-like, finished-goods-like, group-like, scrap/reject-like,
then (3) the `SELLABLE` default. -/
theorem C6_classifier_resolution_order (cls : List (String × WarehouseType)) (name : String) :
    classify_warehouse cls name = classify_warehouse_amendedC6 cls name := by
  unfold classify_warehouse classify_warehouse_amendedC6
  by_cases h0 : name = ""
  · simp [h0]
  · simp only [h0, if_false]
    cases hlk : cls.lookup (strStrip (strLower name)) with
    | some t => rfl
    | none =>
      simp only
      rcases hb1 : (strContains (strStrip (strLower name)) "transit"
          || strContains (strStrip (strLower name)) "in transit") with _ | _ <;>
        rcases hb2 : (strContains (strStrip (strLower name)) "wip"
          || strContains (strStrip (strLower name)) "work in progress") with _ | _ <;>
          rcases hb3 : (strContains (strStrip (strLower name)) "finished goods"
            || strContains (strStrip (strLower name)) "finished") with _ | _ <;>
            rcases hb4 : (strContains (strStrip (strLower name)) "all"
              || strContains (strStrip (strLower name)) "group") with _ | _ <;>
              rcases hb5 : (strContains (strStrip (strLower name)) "scrap"
                || strContains (strStrip (strLower name)) "reject") with _ | _ <;>
                simp [firstMatch, amendedC6FallbackRules, fallbackRule, hb1, hb2, hb3,
                  hb4, hb5]

/-! ## Claim C8 -/

/-- Claim C8: in `STRICT_FAIL` mode an on-time raw promise behaves exactly as
`LATEST_ACCEPTABLE` (promise = raw, `on_time = true`, no adjustment), and a
late raw promise makes `calculate_promise` signal the distinct
`desiredDateUnmet` rejection carrying the raw date as the earliest-possible
date.  The rejection occurs exactly when the raw date is after the desired
date, so callers can distinguish it from shortage or access outcomes, which
return ordinary `.ok` responses. -/
theorem C8_strict_fail (rules : PromiseRules)
    (hmode : rules.desired_date_mode = .STRICT_FAIL) :
    (∀ raw dd : ℤ, raw ≤ dd →
        apply_desired_date_constraints raw (some dd) rules
            = apply_desired_date_constraints raw (some dd)
                { rules with desired_date_mode := .LATEST_ACCEPTABLE }
          ∧ apply_desired_date_constraints raw (some dd) rules
            = .ok { promise_date := raw, on_time := some true,
                    adjusted_due_to_no_early_delivery := false })
    ∧ (∀ (cls : List (String × WarehouseType)) (cfg : LeadTimeConfig)
        (dw : String) (items : List (ItemRequest × ItemSupply)) (today : ℤ)
        (ac : Bool) (dd : ℤ),
        calculate_promise cls cfg dw items (some dd) rules today ac
            = .error (.desiredDateUnmet (promise_raw_of cls cfg dw items rules today ac))
          ↔ dd < promise_raw_of cls cfg dw items rules today ac) := by
  have happ : ∀ raw dd : ℤ, apply_desired_date_constraints raw (some dd) rules
      = if ¬ decide (raw ≤ dd) then Except.error (.desiredDateUnmet raw)
        else .ok { promise_date := raw, on_time := some true,
                   adjusted_due_to_no_early_delivery := false } := by
    intro raw dd
    unfold apply_desired_date_constraints
    rw [hmode]
  constructor
  · intro raw dd hle
    constructor
    · rw [happ raw dd]
      unfold apply_desired_date_constraints
      simp [hle]
    · rw [happ raw dd]
      simp [hle]
  · intro cls cfg dw items today ac dd
    unfold calculate_promise
    dsimp only
    rw [happ]
    by_cases hle : promise_raw_of cls cfg dw items rules today ac ≤ dd
    · rw [if_neg (by simp [hle])]
      simp only
      constructor
      · intro h
        cases h
      · intro h
        omega
    · rw [if_pos (by simp [hle])]
      simp only
      constructor
      · intro _
        omega
      · intro _
        trivial

/-- Witness for C8 at a concrete input: raw promise day 0 against desired
day 3 under `STRICT_FAIL` returns the `LATEST_ACCEPTABLE`-shaped result. -/
theorem C8_strict_fail_witness :
    apply_desired_date_constraints 0 (some 3) ⟨true, 1, some 1, .STRICT_FAIL⟩
      = .ok { promise_date := 0, on_time := some true,
              adjusted_due_to_no_early_delivery := false } :=
  ((C8_strict_fail ⟨true, 1, some 1, .STRICT_FAIL⟩ rfl).1 0 3 (by norm_num)).2

/-! ## Claim C4 -/

/-- Claim C4: for every response `calculate_promise` returns, `promise_date`
is null exactly when the status is not `OK`: all shortages zero gives `OK`
with a non-null date; a positive shortage gives `CANNOT_FULFILL` or
`CANNOT_PROMISE_RELIABLY` with a null date.  (Every shortage in a returned
plan is non-negative, so the two cases are exhaustive.) -/
theorem C4_promise_null_iff_status (cls : List (String × WarehouseType))
    (cfg : LeadTimeConfig) (dw : String) (items : List (ItemRequest × ItemSupply))
    (desired : Option ℤ) (rules : PromiseRules) (today : ℤ) (ac : Bool)
    (resp : PromiseResponse)
    (hok : calculate_promise cls cfg dw items desired rules today ac = .ok resp) :
    (resp.promise_date = none ↔ resp.status ≠ .OK)
      ∧ ((∀ p ∈ resp.plan, p.shortage = 0) →
          resp.status = .OK ∧ resp.promise_date.isSome = true)
      ∧ ((∃ p ∈ resp.plan, 0 < p.shortage) →
          (resp.status = .CANNOT_FULFILL ∨ resp.status = .CANNOT_PROMISE_RELIABLY)
            ∧ resp.promise_date = none)
      ∧ (∀ p ∈ resp.plan, 0 ≤ p.shortage) := by
  unfold calculate_promise at hok
  dsimp only at hok
  cases happ : apply_desired_date_constraints
      (promise_raw_of cls cfg dw items rules today ac) desired rules with
  | error e => rw [happ] at hok; cases hok
  | ok dres =>
    rw [happ] at hok
    injection hok with hresp
    subst hresp
    have hnn : ∀ p ∈ (built_of cls cfg dw items rules today).map (fun x => x.1),
        0 ≤ p.shortage := by
      intro p hp
      obtain ⟨pr, _, rfl⟩ := List.mem_map.mp hp
      obtain ⟨it, _, rfl⟩ := List.mem_map.mp ‹pr ∈ built_of cls cfg dw items rules today›
      exact le_max_left 0 _
    cases hcf : ((built_of cls cfg dw items rules today).map (fun x => x.1)).all
        (fun p => decide (p.shortage = 0)) with
    | true =>
      have hall : ∀ p ∈ (built_of cls cfg dw items rules today).map (fun x => x.1),
          p.shortage = 0 := by
        intro p hp
        simpa using List.all_eq_true.mp hcf p hp
      refine ⟨by simp [hcf], fun _ => by simp [hcf], ?_, hnn⟩
      intro hex
      obtain ⟨p, hp, hpos⟩ := hex
      rw [hall p hp] at hpos
      exact absurd hpos (lt_irrefl 0)
    | false =>
      refine ⟨?_, ?_, ?_, hnn⟩
      · simp only [hcf]
        constructor
        · intro _
          cases hpe : ((built_of cls cfg dw items rules today).any fun b => b.2.isSome) <;>
            simp [hpe]
        · intro _
          rfl
      · intro hall
        have : ((built_of cls cfg dw items rules today).map (fun x => x.1)).all
            (fun p => decide (p.shortage = 0)) = true :=
          List.all_eq_true.mpr (fun p hp => by simp [hall p hp])
        rw [hcf] at this
        cases this
      · intro _
        constructor
        · cases hpe : ((built_of cls cfg dw items rules today).any fun b => b.2.isSome) with
          | true => right; simp [hpe, hcf]
          | false => left; simp [hpe, hcf]
        · simp [hcf]

/-- Witness for C4 at a concrete fulfillable input. -/
theorem C4_promise_null_iff_status_witness :
    (respC4.promise_date = none ↔ respC4.status ≠ .OK) ∧ respC4.status = .OK :=
  ⟨(C4_promise_null_iff_status DEFAULT_WAREHOUSE_CLASSIFICATIONS ⟨[], [], 1⟩ "Stores - WH"
      [(⟨"A", 50, some "Stores - WH"⟩, ⟨.ok ⟨90, 0⟩, .ok []⟩)] none
      ⟨false, 1, some 1, .LATEST_ACCEPTABLE⟩ 0 false respC4 (by decide)).1,
    by decide⟩

/-! ## Claim C7 -/

theorem tally_foldl_eq (today : ℤ) :
    ∀ (l : List FulfillmentSource) (acc : ℚ × ℚ × ℚ),
      l.foldl (tallyStep today) acc
        = (acc.1 + ((l.filter (fun f => decide (f.source = "stock"))).map (·.qty)).sum,
           acc.2.1 + ((l.filter (fun f => decide (f.source = "purchase_order")
              && decide (f.expected_date.getD today - today ≤ 7))).map (·.qty)).sum,
           acc.2.2 + ((l.filter (fun f => decide (f.source = "purchase_order")
              && decide (7 < f.expected_date.getD today - today))).map (·.qty)).sum) := by
  intro l
  induction l with
  | nil => intro acc; simp
  | cons f l ih =>
    intro acc
    simp only [List.foldl_cons, ih, List.filter_cons]
    unfold tallyStep
    by_cases hs : f.source = "stock"
    · simp only [hs]
      simp [Prod.ext_iff]
      ring
    · by_cases hp : f.source = "purchase_order"
      · by_cases hd : f.expected_date.getD today - today ≤ 7
        · have hd' : ¬ 7 < f.expected_date.getD today - today := by omega
          simp only [hs, hp, hd, hd']
          simp [Prod.ext_iff]
          ring
        · have hd' : 7 < f.expected_date.getD today - today := by omega
          simp only [hs, hp, hd, hd']
          simp [Prod.ext_iff]
          ring
      · simp [hs, hp]

theorem confidence_tallies_eq (plan : List ItemPlan) (today : ℤ) :
    confidence_tallies plan today
      = (stock_qty plan, near_po_qty plan today, far_po_qty plan today) := by
  unfold confidence_tallies stock_qty near_po_qty far_po_qty all_sources
  have hA : ∀ (plans : List ItemPlan) (acc : ℚ × ℚ × ℚ),
      plans.foldl (fun acc p => p.fulfillment.foldl (tallyStep today) acc) acc
        = (plans.flatMap (·.fulfillment)).foldl (tallyStep today) acc := by
    intro plans
    induction plans with
    | nil => intro acc; simp
    | cons p ps ih =>
      intro acc
      simp only [List.foldl_cons, List.flatMap_cons, List.foldl_append, ih]
  rw [hA, tally_foldl_eq]
  simp

/-- Claim C7: with a positive total requirement and no access issue, the
final confidence is `HIGH` iff stock covers at least 99 % with under 1 %
shortage; `LOW` iff (not `HIGH` and) the shortage share exceeds 10 % or
far-out incoming quantity exceeds near incoming plus stock; `MEDIUM`
otherwise.  Any access issue unconditionally forces `LOW`. -/
theorem C7_confidence (plan : List ItemPlan) (today : ℤ) (access : Bool)
    (htot : 0 < total_qty plan) :
    (access = true → final_confidence plan today access = .LOW)
      ∧ (access = false →
        ((final_confidence plan today access = .HIGH ↔
            (99 / 100 ≤ stock_qty plan / total_qty plan
              ∧ shortage_qty plan / total_qty plan < 1 / 100))
          ∧ (final_confidence plan today access = .LOW ↔
            (¬ (99 / 100 ≤ stock_qty plan / total_qty plan
                ∧ shortage_qty plan / total_qty plan < 1 / 100)
              ∧ (1 / 10 < shortage_qty plan / total_qty plan
                ∨ near_po_qty plan today + stock_qty plan < far_po_qty plan today)))
          ∧ (final_confidence plan today access = .MEDIUM ↔
            (¬ (99 / 100 ≤ stock_qty plan / total_qty plan
                ∧ shortage_qty plan / total_qty plan < 1 / 100)
              ∧ ¬ (1 / 10 < shortage_qty plan / total_qty plan
                ∨ near_po_qty plan today + stock_qty plan < far_po_qty plan today))))) := by
  constructor
  · intro ha
    simp [final_confidence, ha]
  · intro ha
    have hcalc : final_confidence plan today access = calculate_confidence plan today := by
      simp [final_confidence, ha]
    rw [hcalc]
    unfold calculate_confidence
    rw [confidence_tallies_eq]
    simp only [show (plan.map (·.qty_required)).sum = total_qty plan from rfl,
      show (plan.map (·.shortage)).sum = shortage_qty plan from rfl]
    rw [if_pos htot, if_pos htot]
    by_cases hH : 99 / 100 ≤ stock_qty plan / total_qty plan
        ∧ shortage_qty plan / total_qty plan < 1 / 100
    · rw [if_pos hH]
      exact ⟨⟨fun _ => hH, fun _ => rfl⟩,
        ⟨fun h => absurd h (by decide), fun h => absurd hH h.1⟩,
        ⟨fun h => absurd h (by decide), fun h => absurd hH h.1⟩⟩
    · rw [if_neg hH]
      by_cases hL : 1 / 10 < shortage_qty plan / total_qty plan
          ∨ near_po_qty plan today + stock_qty plan < far_po_qty plan today
      · rw [if_pos hL]
        exact ⟨⟨fun h => absurd h (by decide), fun h => absurd h hH⟩,
          ⟨fun _ => ⟨hH, hL⟩, fun _ => rfl⟩,
          ⟨fun h => absurd h (by decide), fun h => absurd hL h.2⟩⟩
      · rw [if_neg hL]
        exact ⟨⟨fun h => absurd h (by decide), fun h => absurd h hH⟩,
          ⟨fun h => absurd h (by decide), fun h => absurd h.2 hL⟩,
          ⟨fun _ => ⟨hH, hL⟩, fun _ => rfl⟩⟩

/-- Witness for C7: an all-shortage plan with an access issue scores `LOW`. -/
theorem C7_confidence_witness : final_confidence planC7 0 true = .LOW :=
  (C7_confidence planC7 0 true (by norm_num [total_qty, planC7])).1 rfl

/-! ## Claim C10 -/

theorem incoming_allocation_order (rules : PromiseRules) (lt : ℕ) (q : ℚ)
    (fetch : ClientCall (List RawPO)) (today : ℤ) :
    (∀ f ∈ (incoming_allocation rules lt q fetch today).1,
        f.source = "purchase_order" ∧ f.expected_date.isSome = true)
      ∧ (incoming_allocation rules lt q fetch today).1.Pairwise
        (fun a b => a.expected_date.getD 0 ≤ b.expected_date.getD 0) := by
  unfold incoming_allocation
  by_cases hpos : 0 < q
  · simp only [hpos, if_pos]
    cases herr : (get_incoming_supply fetch (some today)).access_error with
    | some e => simp
    | none =>
      simp only
      have hsorted := get_incoming_supply_sorted fetch (some today)
      obtain ⟨k, hk⟩ :=
        consumePOs_take rules lt (get_incoming_supply fetch (some today)).supply q
      constructor
      · intro f hf
        have hmem : (f.source, f.expected_date, f.po_id) ∈
            (consumePOs rules lt (get_incoming_supply fetch (some today)).supply q).1.map
              (fun f => (f.source, f.expected_date, f.po_id)) :=
          List.mem_map_of_mem _ hf
        rw [hk] at hmem
        obtain ⟨r, _, heq⟩ := List.mem_map.mp hmem
        rw [Prod.mk.injEq, Prod.mk.injEq] at heq
        refine ⟨heq.1.symm, ?_⟩
        rw [← heq.2.1]
        rfl
      · have hp1 : ((consumePOs rules lt
            (get_incoming_supply fetch (some today)).supply q).1.map
              (fun f => (f.source, f.expected_date, f.po_id))).Pairwise
            (fun t1 t2 => t1.2.1.getD 0 ≤ t2.2.1.getD 0) := by
          rw [hk, List.pairwise_map]
          have htake : ((get_incoming_supply fetch (some today)).supply.take k).Pairwise
              supplyDateLE :=
            List.Pairwise.sublist (List.take_sublist k _) hsorted
          exact htake.imp (fun h => by simpa [supplyDateLE] using h)
        rw [List.pairwise_map] at hp1
        exact hp1
  · simp [hpos]

/-- Claim C10 (amended): every item plan lists its stock sources first,
followed by purchase-order sources weakly ascending by expected receipt date;
ties among equal expected dates preserve the supply provider's stable order
(they are not reordered by purchase-order id). -/
theorem C10_fulfillment_order (cls : List (String × WarehouseType)) (cfg : LeadTimeConfig)
    (item : ItemRequest) (sup : ItemSupply) (warehouse : String) (today : ℤ)
    (rules : PromiseRules) :
    stock_first_then_po_by_date
      (build_item_plan cls cfg item sup warehouse today rules).1.fulfillment := by
  unfold build_item_plan
  dsimp only
  refine ⟨_, _, rfl, ?_, ?_, ?_⟩
  · intro f hf
    exact (stock_allocation_mem (classify_warehouse cls warehouse)
      (get_available_stock sup.binFetch).available_qty item.qty warehouse today rules
      (get_processing_lead_time cfg item.item_code warehouse rules) f hf).1
  · exact (incoming_allocation_order rules
      (get_processing_lead_time cfg item.item_code warehouse rules) _ sup.poFetch today).1
  · exact (incoming_allocation_order rules
      (get_processing_lead_time cfg item.item_code warehouse rules) _ sup.poFetch today).2

/-- Claim C10 (counterexample): with two incoming purchase orders due the
same day, listed by the provider as PO-B then PO-A, the plan consumes them in
provider order (`PO-B` first), so the tie is not broken by purchase-order id
as the claim states. -/
theorem C10_counterexample_tie_not_by_id :
    planC10.fulfillment.map (fun f => (f.po_id, f.expected_date))
        = [(some "PO-B", some 5), (some "PO-A", some 5)]
      ∧ ¬ stock_first_then_po_by_date_id planC10.fulfillment := by
  have hL : planC10.fulfillment =
      [{ source := "purchase_order", qty := 4, available_date := 5, ship_ready_date := 5,
         warehouse := none, po_id := some "PO-B", expected_date := some 5 },
       { source := "purchase_order", qty := 4, available_date := 5, ship_ready_date := 5,
         warehouse := none, po_id := some "PO-A", expected_date := some 5 }] := by decide
  constructor
  · rw [hL]
    decide
  · rw [hL]
    rintro ⟨sl, pl, heq, hsl, hpl, hpw⟩
    cases sl with
    | nil =>
      rw [List.nil_append] at heq
      rw [← heq] at hpw
      have hrel := (List.pairwise_cons.mp hpw).1 _ (List.mem_cons_self _ _)
      exact absurd hrel (by decide)
    | cons a as =>
      rw [List.cons_append] at heq
      injection heq with h1 h2
      have hsrc := hsl a (List.mem_cons_self _ _)
      rw [← h1] at hsrc
      exact absurd hsrc (by decide)

/-! ## Claim C9 -/

/-- Claim C9 (amended): no provider failure escapes the engine.  A failing
stock read is absorbed into zero available stock and by itself produces no
access-issue marker; the marker appears exactly when unmet quantity remains
after stock and the incoming-supply read fails; and any item's marker forces
the returned confidence to `LOW` and records the access blocker. -/
theorem C9_access_issue_handling :
    (∀ st : Option ℕ,
        get_available_stock (.error st)
          = { actual_qty := 0, reserved_qty := 0, available_qty := 0 })
    ∧ (∀ (cls : List (String × WarehouseType)) (cfg : LeadTimeConfig) (item : ItemRequest)
        (sup : ItemSupply) (warehouse : String) (today : ℤ) (rules : PromiseRules),
        (build_item_plan cls cfg item sup warehouse today rules).2.isSome = true
          ↔ (0 < (stock_allocation (classify_warehouse cls warehouse)
                (get_available_stock sup.binFetch).available_qty item.qty warehouse today
                rules (get_processing_lead_time cfg item.item_code warehouse rules)).2
              ∧ ∃ st, sup.poFetch = Except.error st))
    ∧ (∀ (cls : List (String × WarehouseType)) (cfg : LeadTimeConfig) (dw : String)
        (items : List (ItemRequest × ItemSupply)) (desired : Option ℤ)
        (rules : PromiseRules) (today : ℤ) (ac : Bool) (resp : PromiseResponse)
        (it : ItemRequest × ItemSupply),
        it ∈ items →
        (build_item_plan cls cfg it.1 it.2 (resolve_warehouse dw it.1.warehouse)
            (base_today_of rules today) rules).2.isSome = true →
        calculate_promise cls cfg dw items desired rules today ac = .ok resp →
        resp.confidence = .LOW ∧ Blocker.poAccess ∈ resp.blockers) := by
  refine ⟨fun _ => rfl, ?_, ?_⟩
  · intro cls cfg item sup warehouse today rules
    unfold build_item_plan
    dsimp only
    exact incoming_allocation_marker rules
      (get_processing_lead_time cfg item.item_code warehouse rules) _ sup.poFetch today
  · intro cls cfg dw items desired rules today ac resp it hmem hmark hok
    have hany : ((built_of cls cfg dw items rules today).any fun b => b.2.isSome) = true := by
      apply List.any_eq_true.mpr
      refine ⟨build_item_plan cls cfg it.1 it.2 (resolve_warehouse dw it.1.warehouse)
        (base_today_of rules today) rules, ?_, hmark⟩
      unfold built_of
      exact List.mem_map_of_mem _ hmem
    unfold calculate_promise at hok
    dsimp only at hok
    cases happ : apply_desired_date_constraints
        (promise_raw_of cls cfg dw items rules today ac) desired rules with
    | error e => rw [happ] at hok; cases hok
    | ok dres =>
      rw [happ] at hok
      injection hok with hresp
      subst hresp
      constructor
      · show final_confidence _ today _ = .LOW
        rw [hany]
        rfl
      · show Blocker.poAccess ∈ identify_blockers _ today ++ _
        rw [hany]
        exact List.mem_append_right _ (List.mem_singleton.mpr rfl)

/-- Witness for C9: a denied incoming-supply read forces `LOW` confidence and
records the access blocker. -/
theorem C9_access_issue_handling_witness :
    respC9b.confidence = .LOW ∧ Blocker.poAccess ∈ respC9b.blockers :=
  C9_access_issue_handling.2.2 DEFAULT_WAREHOUSE_CLASSIFICATIONS ⟨[], [], 1⟩ "Stores - WH"
    [(⟨"D", 5, some "Stores - WH"⟩, ⟨.ok ⟨0, 0⟩, .error (some 403)⟩)] none
    ⟨false, 1, some 1, .LATEST_ACCEPTABLE⟩ 0 false respC9b
    (⟨"D", 5, some "Stores - WH"⟩, ⟨.ok ⟨0, 0⟩, .error (some 403)⟩)
    (List.mem_singleton.mpr rfl) (by decide) (by decide)

/-- Claim C9 (counterexample): a failing stock read alone — incoming supply
readable and sufficient — yields an ordinary `.ok` response whose confidence
is `MEDIUM`, with no access blocker recorded, contradicting the claim that
stock-read failures are converted into an access-issue marker forcing `LOW`. -/
theorem C9_counterexample_stock_read_failure :
    calculate_promise DEFAULT_WAREHOUSE_CLASSIFICATIONS ⟨[], [], 1⟩ "Stores - WH"
        [(⟨"A", 5, some "Stores - WH"⟩,
          ⟨.error (some 500), .ok [⟨"PO-1", 10, some 2, none⟩]⟩)]
        none ⟨false, 1, some 1, .LATEST_ACCEPTABLE⟩ 0 false = .ok respC9
      ∧ respC9.confidence = .MEDIUM
      ∧ respC9.blockers = []
      ∧ Blocker.poAccess ∉ respC9.blockers := by
  refine ⟨by decide, by decide, by decide, by decide⟩

/-! ## Claim C5 -/

theorem foldl_max_assoc : ∀ (l : List ℤ) (a b : ℤ),
    List.foldl max (max a b) l = max a (List.foldl max b l) := by
  intro l
  induction l with
  | nil => intro a b; rfl
  | cons c l ih =>
    intro a b
    show List.foldl max (max (max a b) c) l = max a (List.foldl max (max b c) l)
    rw [max_assoc, ih]

theorem le_foldl_max : ∀ (l : List ℤ) (a : ℤ), a ≤ List.foldl max a l := by
  intro l
  induction l with
  | nil => intro a; exact le_rfl
  | cons b l ih =>
    intro a
    show a ≤ List.foldl max (max a b) l
    exact le_trans (le_max_left a b) (ih (max a b))

theorem latest_fold_eq_foldl (plans : List ItemPlan) (base : ℤ) :
    latest_fold plans base = (allShipReady plans).foldl max base := by
  induction plans generalizing base with
  | nil => rfl
  | cons p ps ih =>
    have hstep : (match p.fulfillment.map (·.ship_ready_date) with
        | [] => base
        | s :: ss => max base (ss.foldl max s))
        = (p.fulfillment.map (·.ship_ready_date)).foldl max base := by
      cases hm : p.fulfillment.map (·.ship_ready_date) with
      | nil => rfl
      | cons s ss =>
        show max base (ss.foldl max s) = List.foldl max (max base s) ss
        rw [foldl_max_assoc]
    have hships : allShipReady (p :: ps)
        = p.fulfillment.map (·.ship_ready_date) ++ allShipReady ps := by
      simp [allShipReady]
    show latest_fold ps (match p.fulfillment.map (·.ship_ready_date) with
        | [] => base
        | s :: ss => max base (ss.foldl max s))
      = (allShipReady (p :: ps)).foldl max base
    rw [hstep, ih, hships, List.foldl_append]

theorem latest_fold_eq_spec (plans : List ItemPlan) (base : ℤ)
    (h : ∀ s ∈ allShipReady plans, base ≤ s) :
    latest_fold plans base = latest_ship_ready_spec plans base := by
  rw [latest_fold_eq_foldl]
  unfold latest_ship_ready_spec
  cases hs : allShipReady plans with
  | nil => rfl
  | cons s ss =>
    show List.foldl max (max base s) ss = ss.foldl max s
    have hbs : base ≤ s := h s (by rw [hs]; exact List.mem_cons_self _ _)
    rw [max_eq_right hbs]

theorem build_item_plan_ship_ge (cls : List (String × WarehouseType)) (cfg : LeadTimeConfig)
    (item : ItemRequest) (sup : ItemSupply) (warehouse : String) (today : ℤ)
    (rules : PromiseRules) :
    ∀ f ∈ (build_item_plan cls cfg item sup warehouse today rules).1.fulfillment,
      today ≤ f.ship_ready_date := by
  unfold build_item_plan
  dsimp only
  intro f hf
  rw [List.mem_append] at hf
  rcases hf with hf | hf
  · rcases (stock_allocation_mem (classify_warehouse cls warehouse)
        (get_available_stock sup.binFetch).available_qty item.qty warehouse today rules
        (get_processing_lead_time cfg item.item_code warehouse rules) f hf).2.2 with h | h <;>
      rw [h] <;> exact le_stock_ship_ready_date rules _ today
  · exact incoming_allocation_ship_ge rules
      (get_processing_lead_time cfg item.item_code warehouse rules) sup.poFetch today f hf

/-- Claim C5 (amended): the raw promise date equals exactly the claimed
pipeline — latest ship-ready date over all fulfillment sources (falling back
to today normalized to the next working day when the calendar is active, when
no item has any fulfillment), plus the lead-time buffer in working or
calendar days, plus one extra day only when the result equals today and the
call is after the cutoff, finally snapped to the next working day under
`no_weekends` — and `promise_date_raw` in every returned response is that
value. -/
theorem C5_raw_promise_pipeline (cls : List (String × WarehouseType)) (cfg : LeadTimeConfig)
    (dw : String) (items : List (ItemRequest × ItemSupply)) (rules : PromiseRules)
    (today : ℤ) (ac : Bool) :
    promise_raw_of cls cfg dw items rules today ac
        = aggregate_specC5 ((built_of cls cfg dw items rules today).map (·.1)) rules today ac
            (base_today_of rules today)
      ∧ (∀ (desired : Option ℤ) (resp : PromiseResponse),
          calculate_promise cls cfg dw items desired rules today ac = .ok resp →
          resp.promise_date_raw = promise_raw_of cls cfg dw items rules today ac
            ∧ resp.plan = (built_of cls cfg dw items rules today).map (·.1)) := by
  constructor
  · have hge : ∀ s ∈ allShipReady ((built_of cls cfg dw items rules today).map (·.1)),
        base_today_of rules today ≤ s := by
      intro s hs
      unfold allShipReady at hs
      rw [List.mem_flatMap] at hs
      obtain ⟨p, hp, hsp⟩ := hs
      rw [List.mem_map] at hsp
      obtain ⟨f, hfp, rfl⟩ := hsp
      rw [List.mem_map] at hp
      obtain ⟨pr, hpr, rfl⟩ := hp
      unfold built_of at hpr
      rw [List.mem_map] at hpr
      obtain ⟨it, _, rfl⟩ := hpr
      exact build_item_plan_ship_ge cls cfg it.1 it.2 (resolve_warehouse dw it.1.warehouse)
        (base_today_of rules today) rules f hfp
    have hbase := latest_fold_eq_spec ((built_of cls cfg dw items rules today).map (·.1))
      (base_today_of rules today) hge
    unfold promise_raw_of aggregate_specC5 apply_business_rules apply_cutoff_rule
    rw [hbase]
  · intro desired resp hok
    unfold calculate_promise at hok
    dsimp only at hok
    cases happ : apply_desired_date_constraints
        (promise_raw_of cls cfg dw items rules today ac) desired rules with
    | error e => rw [happ] at hok; cases hok
    | ok dres =>
      rw [happ] at hok
      injection hok with hresp
      subst hresp
      exact ⟨rfl, rfl⟩

/-- Witness for C5's response conjunct at a concrete input. -/
theorem C5_raw_promise_pipeline_witness :
    respC4.promise_date_raw = promise_raw_of DEFAULT_WAREHOUSE_CLASSIFICATIONS ⟨[], [], 1⟩
      "Stores - WH" [(⟨"A", 50, some "Stores - WH"⟩, ⟨.ok ⟨90, 0⟩, .ok []⟩)]
      ⟨false, 1, some 1, .LATEST_ACCEPTABLE⟩ 0 false :=
  ((C5_raw_promise_pipeline DEFAULT_WAREHOUSE_CLASSIFICATIONS ⟨[], [], 1⟩ "Stores - WH"
    [(⟨"A", 50, some "Stores - WH"⟩, ⟨.ok ⟨90, 0⟩, .ok []⟩)]
    ⟨false, 1, some 1, .LATEST_ACCEPTABLE⟩ 0 false).2 none respC4 (by decide)).1

/-- Claim C5 (counterexample): with no fulfillment sources, a Friday `today`
(day 4), `no_weekends = true` and a one-day buffer, the engine starts from
the normalized base (Sunday, day 6) and promises Monday (day 7), while the
claimed pipeline starting from `today` itself yields Sunday (day 6). -/
theorem C5_counterexample_weekend_fallback :
    promise_raw_of DEFAULT_WAREHOUSE_CLASSIFICATIONS ⟨[], [], 1⟩ "Stores - WH" []
        ⟨true, 1, some 1, .LATEST_ACCEPTABLE⟩ 4 false = 7
      ∧ aggregate_specC5 [] ⟨true, 1, some 1, .LATEST_ACCEPTABLE⟩ 4 false 4 = 6
      ∧ (7 : ℤ) ≠ 6 :=
  ⟨by decide, by decide, by decide⟩

/-! ## Claim C3 -/

theorem apply_business_rules_working {rules : PromiseRules} (hnw : rules.no_weekends = true)
    (b today : ℤ) (ac : Bool) :
    is_working_day (apply_business_rules b rules today ac) = true := by
  unfold apply_business_rules
  dsimp only
  rw [hnw]
  simp only [if_true]
  exact next_working_day_works _

theorem build_item_plan_working (cls : List (String × WarehouseType)) (cfg : LeadTimeConfig)
    (item : ItemRequest) (sup : ItemSupply) (warehouse : String) {today : ℤ}
    {rules : PromiseRules} (hnw : rules.no_weekends = true)
    (ht : is_working_day today = true) :
    ∀ f ∈ (build_item_plan cls cfg item sup warehouse today rules).1.fulfillment,
      is_working_day f.available_date = true ∧ is_working_day f.ship_ready_date = true := by
  unfold build_item_plan
  dsimp only
  intro f hf
  rw [List.mem_append] at hf
  rcases hf with hf | hf
  · obtain ⟨_, havail, hship⟩ := stock_allocation_mem (classify_warehouse cls warehouse)
      (get_available_stock sup.binFetch).available_qty item.qty warehouse today rules
      (get_processing_lead_time cfg item.item_code warehouse rules) f hf
    constructor
    · rw [havail]; exact ht
    · rcases hship with h | h <;> rw [h] <;> exact stock_ship_ready_date_working hnw _ ht
  · exact incoming_allocation_working
      (get_processing_lead_time cfg item.item_code warehouse rules) sup.poFetch today hnw f hf

theorem apply_desired_date_constraints_promise {raw : ℤ} {desired : Option ℤ}
    {rules : PromiseRules} {dres : DesiredResult}
    (h : apply_desired_date_constraints raw desired rules = .ok dres) :
    dres.promise_date = raw ∨ desired = some dres.promise_date := by
  unfold apply_desired_date_constraints at h
  cases desired with
  | none =>
    injection h with h
    rw [← h]
    left
    rfl
  | some dd =>
    dsimp only at h
    cases hm : rules.desired_date_mode with
    | LATEST_ACCEPTABLE =>
      rw [hm] at h
      injection h with h
      rw [← h]
      left
      rfl
    | STRICT_FAIL =>
      rw [hm] at h
      by_cases hot : ¬ decide (raw ≤ dd) = true
      · rw [if_pos hot] at h
        cases h
      · rw [if_neg hot] at h
        injection h with h
        rw [← h]
        left
        rfl
    | NO_EARLY_DELIVERY =>
      rw [hm] at h
      by_cases hlt : raw < dd
      · rw [if_pos hlt] at h
        injection h with h
        rw [← h]
        right
        rfl
      · rw [if_neg hlt] at h
        injection h with h
        rw [← h]
        left
        rfl

/-- Claim C3 (amended): with `no_weekends = true`, every fulfillment source's
availability and ship-ready date and the raw promise date fall on working
days (never Friday or Saturday); the final promise date is also a working day
except when it was set verbatim to the customer-desired date, which is not
snapped. -/
theorem C3_no_weekend_dates (cls : List (String × WarehouseType)) (cfg : LeadTimeConfig)
    (dw : String) (items : List (ItemRequest × ItemSupply)) (desired : Option ℤ)
    (rules : PromiseRules) (today : ℤ) (ac : Bool) (resp : PromiseResponse)
    (hnw : rules.no_weekends = true)
    (hok : calculate_promise cls cfg dw items desired rules today ac = .ok resp) :
    (∀ p ∈ resp.plan, ∀ f ∈ p.fulfillment,
        is_working_day f.available_date = true ∧ is_working_day f.ship_ready_date = true)
      ∧ is_working_day resp.promise_date_raw = true
      ∧ (∀ d, resp.promise_date = some d → (is_working_day d = true ∨ desired = some d)) := by
  unfold calculate_promise at hok
  dsimp only at hok
  cases happ : apply_desired_date_constraints
      (promise_raw_of cls cfg dw items rules today ac) desired rules with
  | error e => rw [happ] at hok; cases hok
  | ok dres =>
    rw [happ] at hok
    injection hok with hresp
    subst hresp
    have hbt : is_working_day (base_today_of rules today) = true := by
      unfold base_today_of
      rw [hnw]
      simp only [if_true]
      exact next_working_day_works today
    have hraw : is_working_day (promise_raw_of cls cfg dw items rules today ac) = true := by
      show is_working_day (apply_business_rules _ rules today ac) = true
      exact apply_business_rules_working hnw _ today ac
    refine ⟨?_, hraw, ?_⟩
    · intro p hp f hf
      obtain ⟨pr, hpr, rfl⟩ := List.mem_map.mp hp
      have hpr' : pr ∈ items.map (fun it =>
          build_item_plan cls cfg it.1 it.2 (resolve_warehouse dw it.1.warehouse)
            (base_today_of rules today) rules) := hpr
      obtain ⟨it, _, rfl⟩ := List.mem_map.mp hpr'
      exact build_item_plan_working cls cfg it.1 it.2 (resolve_warehouse dw it.1.warehouse)
        hnw hbt f hf
    · intro d hd
      cases hcf : ((built_of cls cfg dw items rules today).map (fun x => x.1)).all
          (fun p => decide (p.shortage = 0)) with
      | false =>
        rw [hcf] at hd
        simp at hd
      | true =>
        rw [hcf] at hd
        simp only [if_true] at hd
        injection hd with hd
        rcases apply_desired_date_constraints_promise happ with h | h
        · left
          rw [← hd, h]
          exact hraw
        · right
          rw [← hd]
          exact h

/-- Witness for C3 at a concrete input with `no_weekends = true`. -/
theorem C3_no_weekend_dates_witness :
    is_working_day respC3w.promise_date_raw = true :=
  (C3_no_weekend_dates DEFAULT_WAREHOUSE_CLASSIFICATIONS ⟨[], [], 1⟩ "Stores - WH"
    [(⟨"A", 5, some "Stores - WH"⟩, ⟨.ok ⟨10, 0⟩, .ok []⟩)] none
    ⟨true, 1, some 1, .LATEST_ACCEPTABLE⟩ 0 false respC3w rfl (by decide)).2.1

/-- Claim C3 (counterexample): with `no_weekends = true`, a customer-desired
Friday (day 4) under `NO_EARLY_DELIVERY` is returned verbatim as the final
promise date even though Friday is not a working day. -/
theorem C3_counterexample_weekend_promise :
    calculate_promise DEFAULT_WAREHOUSE_CLASSIFICATIONS ⟨[], [], 1⟩ "Stores - WH"
        [(⟨"A", 5, some "Stores - WH"⟩, ⟨.ok ⟨10, 0⟩, .ok []⟩)] (some 4)
        ⟨true, 0, some 0, .NO_EARLY_DELIVERY⟩ 0 false = .ok respC3
      ∧ respC3.promise_date = some 4
      ∧ is_working_day 4 = false :=
  ⟨by decide, by decide, by decide⟩

end ERPNextNof
